import Mathlib

/-!
Verification development for the CSV-to-Contentstack import engine.

The embedded functions are translated from the TypeScript sources:
  * `src/utils/fieldUtils.ts` — schema flattening (`flattenContentstackFields`,
    `flattenContentstackFieldsSync`), value routing (`transformNestedValue`)
    and the nested merge engine (`mergeNestedData`);
  * `src/components/ImportProgress/useImportOperations.tsx` — the hook's
    `transformValue`, `handleCreateOrUpdateEntry` and `startImport`;
  * `src/components/ImportProgress.tsx` — two further `transformValue`
    variants (the first takes a mapping, the legacy one takes a field type);
  * the field matcher (`findMatchingField` with `normalizeText` /
    `getTextVariations`).

JavaScript values are modelled by the inductive `JValue` (with `vundef` for
`undefined`); JS truthiness, property access (a `TypeError` on `null` or
`undefined` receivers is modelled as `Except.error`), and property-key
coercion are made explicit.  Built-in parsers with irrelevant-to-the-claims
behaviour (`Number`, `parseFloat`, `new Date(...).toISOString()`) are
abstracted as oracle parameters, and theorems quantify over them.

Two embeddings of `mergeNestedData` are given: a value-level one (the result
of running the JS function on tree-shaped data, used for functional claims)
and a store-level one with explicit addresses (used for the mutation /
frame claim, where aliasing between the input and the returned document is
the point).
-/

set_option maxHeartbeats 1000000

namespace CsvImporter

/-- One select option, `{value, text}` from `types/contentstack.ts`. -/
structure SelectOption where
  value : String
  text : String
deriving DecidableEq, Repr

/-- A leaf, mappable projection of a schema field
(`FlattenedField` in `types/contentstack.ts`).  Optional TS properties are
`Option`s; `parentField := none` models the `parentField || undefined`
idiom. -/
structure FlattenedField where
  uid : String
  display_name : String
  data_type : String
  mandatory : Bool
  reference_to : Option (List String)
  fieldPath : String
  parentField : Option String
  blockType : Option String
  selectOptions : Option (List SelectOption)
deriving DecidableEq, Repr

mutual

/-- A declared schema field (`ContentstackField` in `types/contentstack.ts`).
`blocks` is populated for modular-block containers, `schema` for global
fields whose nested schema is inline. -/
inductive ContentstackField : Type where
  | mk (uid display_name data_type : String) (mandatory : Bool)
      (reference_to : Option (List String))
      (blocks : Option (List BlockSchema))
      (schema : Option (List ContentstackField))

/-- One block variant of a modular-block field
(`BlockSchema` in `types/contentstack.ts`). -/
inductive BlockSchema : Type where
  | mk (title uid : String) (schema : List ContentstackField)

end

namespace ContentstackField

def uid : ContentstackField → String
  | .mk u _ _ _ _ _ _ => u

def display_name : ContentstackField → String
  | .mk _ d _ _ _ _ _ => d

def data_type : ContentstackField → String
  | .mk _ _ t _ _ _ _ => t

def mandatory : ContentstackField → Bool
  | .mk _ _ _ m _ _ _ => m

def reference_to : ContentstackField → Option (List String)
  | .mk _ _ _ _ r _ _ => r

def blocks : ContentstackField → Option (List BlockSchema)
  | .mk _ _ _ _ _ b _ => b

def schema : ContentstackField → Option (List ContentstackField)
  | .mk _ _ _ _ _ _ s => s

end ContentstackField

namespace BlockSchema

def title : BlockSchema → String
  | .mk t _ _ => t

def uid : BlockSchema → String
  | .mk _ u _ => u

def schema : BlockSchema → List ContentstackField
  | .mk _ _ s => s

end BlockSchema

/-- JS `parentPath ? parentPath + "." + field.uid : field.uid` (an empty
string is falsy). -/
def joinPath (parentPath uid : String) : String :=
  if parentPath = "" then uid else parentPath ++ "." ++ uid

/-- JS `parentField || undefined`. -/
def parentFieldOpt (parentField : String) : Option String :=
  if parentField = "" then none else some parentField

/-- The `flattened.push({uid: field.uid, ...})` record for a non-blocks
field in both flatteners. -/
def selfEntry (f : ContentstackField) (fieldPath parentField : String) :
    FlattenedField :=
  { uid := f.uid
    display_name := f.display_name
    data_type := f.data_type
    mandatory := f.mandatory
    reference_to := f.reference_to
    fieldPath := fieldPath
    parentField := parentFieldOpt parentField
    blockType := none
    selectOptions := none }

/-- The record pushed for one field of one block of a modular-block
container (shared by both flatteners). -/
def blockEntry (f : ContentstackField) (b : BlockSchema)
    (bf : ContentstackField) (fieldPath : String) : FlattenedField :=
  { uid := bf.uid
    display_name :=
      f.display_name ++ " > " ++ b.title ++ " > " ++ bf.display_name
    data_type := bf.data_type
    mandatory := bf.mandatory
    reference_to := bf.reference_to
    fieldPath := fieldPath ++ "." ++ b.uid ++ "." ++ bf.uid
    parentField := some f.uid
    blockType := some b.uid
    selectOptions := none }

/-- The records a modular-block container contributes: one per field of
each declared block, in source order (`field.blocks.forEach(block =>
block.schema.forEach(...))`).  A missing `blocks` list contributes
nothing (`field.blocks` is falsy when `undefined`). -/
def blockEntries (f : ContentstackField) (fieldPath : String) :
    List FlattenedField :=
  match f.blocks with
  | some bs => bs.flatMap fun b => b.schema.map fun bf => blockEntry f b bf fieldPath
  | none => []

mutual

/-- `flattenContentstackFieldsSync` from `src/utils/fieldUtils.ts`:
the synchronous flattener for schemas whose global-field sub-schemas are
already inline. -/
def flattenContentstackFieldsSync :
    List ContentstackField → String → String → List FlattenedField
  | [], _, _ => []
  | f :: rest, parentPath, parentField =>
    flattenFieldSync f parentPath parentField ++
      flattenContentstackFieldsSync rest parentPath parentField
termination_by fields _ _ => sizeOf fields

/-- The records one field contributes in the synchronous flattener:
its own entry unless it is a `blocks` container, the per-block leaf
entries for containers, and the recursively flattened nested schema for a
global field whose `schema` is present. -/
def flattenFieldSync :
    ContentstackField → String → String → List FlattenedField
  | .mk uid dn dt m rt blocks schema, parentPath, parentField =>
    let f : ContentstackField := .mk uid dn dt m rt blocks schema
    let fieldPath := joinPath parentPath uid
    let selfPart : List FlattenedField :=
      if dt ≠ "blocks" then [selfEntry f fieldPath parentField] else []
    let blockPart : List FlattenedField :=
      if dt = "blocks" then blockEntries f fieldPath else []
    let globalPart : List FlattenedField :=
      if dt = "global_field" then
        match schema with
        | some s => flattenContentstackFieldsSync s fieldPath uid
        | none => []
      else []
    selfPart ++ blockPart ++ globalPart
termination_by f _ _ => sizeOf f

end

/-- Outcome of the HTTP fetch of a global field's schema inside the
asynchronous flattener: a parsed schema list (`data.global_field?.schema
|| []`), a non-ok HTTP status, or a thrown network error. -/
inductive ResolveOutcome : Type where
  | ok (schema : List ContentstackField)
  | httpError (status : Nat)
  | networkError

/-- The failure annotation chosen from the HTTP status
(`errorDescription` in `flattenContentstackFields`). -/
def errorDescription (status : Nat) : String :=
  if status = 422 then "invalid credentials or field not accessible"
  else if status = 404 then "global field not found"
  else if status = 401 then "unauthorized access"
  else "schema unavailable"

/-- The annotated fallback record pushed when a global field's schema
could not be resolved. -/
def annotatedGlobalEntry (f : ContentstackField)
    (desc : String) (fieldPath parentField : String) : FlattenedField :=
  { uid := f.uid
    display_name := f.display_name ++ " (global field - " ++ desc ++ ")"
    data_type := "global_field"
    mandatory := f.mandatory
    reference_to := none
    fieldPath := fieldPath
    parentField := parentFieldOpt parentField
    blockType := none
    selectOptions := none }

/-- `flattenContentstackFields` from `src/utils/fieldUtils.ts`, the
asynchronous flattener.  The `fetch` of a global field's schema is
abstracted by the `resolve` oracle; `resolve = none` models a missing
`config` argument.  Because fetched schemas may themselves contain global
fields, the JS recursion is bounded here by an explicit `fuel` for the
nesting depth (the JS function terminates exactly when such a bound
exists): one unit of fuel is consumed per level, so a top-level call with
any positive fuel processes its own fields, and nested global-field
schemas are flattened with one unit less.  For a global field with no
inline schema: with `reference_to` and a config present the schema is
fetched — on a non-ok HTTP status or a network error a second, annotated
record is pushed after the basic one and no nested fields are emitted;
with no `reference_to` or no config the annotated "no config" record is
pushed. -/
def flattenContentstackFields
    (resolve : Option (List String → ResolveOutcome)) :
    Nat → List ContentstackField → String → String → List FlattenedField
  | 0, _, _, _ => []
  | fuel + 1, fields, parentPath, parentField =>
    fields.flatMap fun f =>
      let fieldPath := joinPath parentPath f.uid
      let selfPart : List FlattenedField :=
        if f.data_type ≠ "blocks" then [selfEntry f fieldPath parentField]
        else []
      let blockPart : List FlattenedField :=
        if f.data_type = "blocks" then blockEntries f fieldPath else []
      let globalPart : List FlattenedField :=
        if f.data_type = "global_field" then
          match f.schema with
          | some s =>
            flattenContentstackFields resolve fuel s fieldPath f.uid
          | none =>
            match f.reference_to, resolve with
            | some r, some res =>
              match res r with
              | .ok gfs =>
                flattenContentstackFields resolve fuel gfs fieldPath f.uid
              | .httpError st =>
                [annotatedGlobalEntry f (errorDescription st) fieldPath
                  parentField]
              | .networkError =>
                [annotatedGlobalEntry f "network error" fieldPath
                  parentField]
            | _, _ =>
              [annotatedGlobalEntry f "no config" fieldPath parentField]
        else []
      selfPart ++ blockPart ++ globalPart

/-- The records one field contributes in the asynchronous flattener at a
given nesting budget (the `flatMap` body above). -/
def flattenFieldAsync (resolve : Option (List String → ResolveOutcome))
    (fuel : Nat) (f : ContentstackField) (parentPath parentField : String) :
    List FlattenedField :=
  let fieldPath := joinPath parentPath f.uid
  let selfPart : List FlattenedField :=
    if f.data_type ≠ "blocks" then [selfEntry f fieldPath parentField]
    else []
  let blockPart : List FlattenedField :=
    if f.data_type = "blocks" then blockEntries f fieldPath else []
  let globalPart : List FlattenedField :=
    if f.data_type = "global_field" then
      match f.schema with
      | some s => flattenContentstackFields resolve fuel s fieldPath f.uid
      | none =>
        match f.reference_to, resolve with
        | some r, some res =>
          match res r with
          | .ok gfs =>
            flattenContentstackFields resolve fuel gfs fieldPath f.uid
          | .httpError st =>
            [annotatedGlobalEntry f (errorDescription st) fieldPath
              parentField]
          | .networkError =>
            [annotatedGlobalEntry f "network error" fieldPath parentField]
        | _, _ =>
          [annotatedGlobalEntry f "no config" fieldPath parentField]
    else []
  selfPart ++ blockPart ++ globalPart

theorem flattenContentstackFields_succ
    (resolve : Option (List String → ResolveOutcome)) (fuel : Nat)
    (fields : List ContentstackField) (parentPath parentField : String) :
    flattenContentstackFields resolve (fuel + 1) fields parentPath
      parentField =
      fields.flatMap
        (fun f => flattenFieldAsync resolve fuel f parentPath parentField) :=
  rfl

/-! ## String primitives

The JS string operations used by the sources, implemented structurally
over `String.data` so that concrete computations reduce inside the
kernel. -/

/-- JS `s.split(c)` for a single-character separator: `""` yields `[""]`,
and leading/trailing/adjacent separators yield empty pieces. -/
def jsSplitChar (s : String) (c : Char) : List String :=
  s.data.foldr
    (fun ch acc =>
      match acc with
      | h :: t => if ch = c then "" :: acc else (⟨ch :: h.data⟩ : String) :: t
      | [] => acc)
    [""]

/-- The characters JS `\s` and `trim()` treat as whitespace (ASCII part;
the sources only process ASCII headers and cell text). -/
def jsWs (c : Char) : Bool :=
  c = ' ' ∨ c = '\t' ∨ c = '\n' ∨ c = '\r' ∨ c.val = 11 ∨ c.val = 12

/-- JS `s.toLowerCase()` (ASCII). -/
def jsToLower (s : String) : String :=
  ⟨s.data.map Char.toLower⟩

/-- JS `s.trim()`. -/
def jsTrim (s : String) : String :=
  ⟨(((s.data.dropWhile jsWs).reverse.dropWhile jsWs).reverse : List Char)⟩

/-- JS `s.length` (UTF-16 units; code points for the ASCII data the
importer handles). -/
def jsLen (s : String) : Nat :=
  s.data.length

/-! ## JavaScript values

`JValue` models the JSON-like values flowing through the importer: `vundef`
is JS `undefined` (the result of reading a missing property), objects are
insertion-ordered association lists (JS objects never hold duplicate
keys; all constructions below preserve that). -/

/-- A JavaScript value as handled by the importer. -/
inductive JValue : Type where
  | vnull
  | vundef
  | vbool (b : Bool)
  | vnum (q : Rat)
  | vstr (s : String)
  | varr (elems : List JValue)
  | vobj (fields : List (String × JValue))

namespace JValue

/-- JS truthiness.  (`NaN` is not representable here; the `Number`/`Date`
oracles deliver `vnull` in the branches that check for `NaN`.) -/
def truthy : JValue → Bool
  | .vnull => false
  | .vundef => false
  | .vbool b => b
  | .vnum q => !(q == 0)
  | .vstr s => !(s == "")
  | .varr _ => true
  | .vobj _ => true

/-- Property read on an object's field list; a missing key yields
`undefined`. -/
def objGet (fields : List (String × JValue)) (k : String) : JValue :=
  match fields.find? (fun p => p.1 == k) with
  | some p => p.2
  | none => (.vundef)

/-- Property assignment on an object's field list: an existing key (JS
objects hold each key at most once) is updated in place, keeping
insertion order; a new key is appended. -/
def objSet (fields : List (String × JValue)) (k : String) (v : JValue) :
    List (String × JValue) :=
  match fields with
  | [] => [(k, v)]
  | p :: rest => if p.1 = k then (k, v) :: rest else p :: objSet rest k v

/-- Property read `recv[k]`.  Reading a property of `null` or `undefined`
throws a `TypeError`, modelled as `Except.error`.  For the non-object
primitives and arrays the properties the merge engine reads
(`isGlobalFieldBlock`, `blockType`, `isGlobalField`, `globalFieldName`,
`nestedPath`, `fieldName`, `value`) are never built-ins, so the read
yields `undefined`. -/
def getProp : JValue → String → Except Unit JValue
  | .vnull, _ => .error ()
  | .vundef, _ => .error ()
  | .vobj fields, k => .ok (objGet fields k)
  | _, _ => .ok (.vundef)

/-- Truthiness of `recv[k]`, erroring when the read itself throws. -/
def truthyProp (v : JValue) (k : String) : Except Unit Bool := do
  let p ← getProp v k
  pure p.truthy

/-- JS property-key coercion `obj[x]` for non-string `x` (`String(x)`).
Numbers are printed via `Rat`, and objects/arrays are abstracted by their
`"[object Object]"`-style tag; the importer only ever uses genuine
strings as dynamic keys. -/
def keyString : JValue → String
  | .vstr s => s
  | .vnull => "null"
  | .vundef => "undefined"
  | .vbool b => if b then "true" else "false"
  | .vnum q => toString q
  | .varr _ => "[object Array]"
  | .vobj _ => "[object Object]"

/-- The fields contributed by `{...existingData}` (spread).  Entry
documents are always objects; spreading a primitive contributes no
fields, which matches JS for every primitive except strings (whose index
properties the importer never produces as documents). -/
def spreadFields : JValue → List (String × JValue)
  | .vobj fields => fields
  | _ => []

/-- JS `Object.keys(block)[0]`.  Throws on `null`/`undefined`; for objects
it is the first insertion-ordered key; for the primitives and arrays the
block finder encounters in importer-produced data it is modelled as
absent. -/
def firstKey : JValue → Except Unit (Option String)
  | .vnull => .error ()
  | .vundef => .error ()
  | .vobj [] => .ok none
  | .vobj (p :: _) => .ok (some p.1)
  | _ => .ok none

end JValue

/-! ## The nested merge engine (value level)

`mergeNestedData` below is the value-level semantics of
`mergeNestedData` from `src/utils/fieldUtils.ts`: the value returned by
the JS function when run on tree-shaped (unaliased) data.  JS exceptions
(property reads on `null`, `.find` on a non-array, assignments to a
primitive's property — the sources are compiled as strict-mode modules)
are `Except.error`.  A store-level model capturing mutation of the input
is given further below for the frame claim. -/

/-- Walk `existingBlock[blockType][fieldName] = value` functionally:
`inner` must be an object for the assignment to succeed. -/
def setBlockField (block : JValue) (blockKey fieldName : String)
    (v : JValue) : Except Unit JValue := do
  let inner ← block.getProp blockKey
  match inner with
  | .vobj innerFields =>
    match block with
    | .vobj blockFields =>
      .ok (.vobj (JValue.objSet blockFields blockKey
        (.vobj (JValue.objSet innerFields fieldName v))))
    | _ => .error ()
  | _ => .error ()

/-- In the global-field branch the nested structure is built by
`for (...) { if (!current[k]) current[k] = {}; current = current[k]; }`
followed by `current[finalKey] = value`.  A falsy intermediate is replaced
by `{}`; a truthy non-object intermediate makes the subsequent property
assignment throw.  An empty `nestedPath` makes `finalKey` the literal
`undefined`, coerced to the key `"undefined"`. -/
def setNestedPath (fields : List (String × JValue)) (ks : List String)
    (v : JValue) : Except Unit (List (String × JValue)) :=
  match ks with
  | [] => .ok (JValue.objSet fields "undefined" v)
  | [k] => .ok (JValue.objSet fields k v)
  | k :: rest => do
    let cur := JValue.objGet fields k
    let child := if cur.truthy then cur else .vobj []
    match child with
    | .vobj childFields => do
      let childFields' ← setNestedPath childFields rest v
      .ok (JValue.objSet fields k (.vobj childFields'))
    | _ => .error ()

/-- Find the index of the first element `b` of `modular_blocks` with
`b[blockType]` truthy (the predicate itself throws on a `null` element). -/
def findTruthyBlockIdx (elems : List JValue) (blockKey : String) :
    Except Unit (Option Nat) :=
  match elems with
  | [] => .ok none
  | b :: rest => do
    let t ← b.truthyProp blockKey
    if t then .ok (some 0)
    else do
      let r ← findTruthyBlockIdx rest blockKey
      .ok (r.map (· + 1))

/-- Find the index of the first element whose `Object.keys(block)[0]`
equals `blockType`. -/
def findFirstKeyIdx (elems : List JValue) (blockKey : String) :
    Except Unit (Option Nat) :=
  match elems with
  | [] => .ok none
  | b :: rest => do
    let k ← b.firstKey
    if k = some blockKey then .ok (some 0)
    else do
      let r ← findFirstKeyIdx rest blockKey
      .ok (r.map (· + 1))

/-- The container value `result[fieldName]` coerced for the modular-block
branches: a falsy value is replaced by `[]`; a truthy non-array would make
`.find` throw. -/
def asBlockArray (v : JValue) : Except Unit (List JValue) :=
  if v.truthy then
    match v with
    | .varr elems => .ok elems
    | _ => .error ()
  else .ok []

/-- The container value `result[gf]` coerced for the global-field
branches of `fieldUtils.ts`: `if (!result[gf] || typeof result[gf] ===
'string') result[gf] = {}`; a remaining truthy non-object (number, bool,
array) makes the subsequent property accesses fail. -/
def asGlobalObject (v : JValue) : Except Unit (List (String × JValue)) :=
  let base := match v with
    | .vstr _ => JValue.vobj []
    | other => if other.truthy then other else .vobj []
  match base with
  | .vobj fields => .ok fields
  | _ => .error ()

/-- `mergeNestedData` from `src/utils/fieldUtils.ts` (value level). -/
def mergeNestedData (existingData newData : JValue) (fieldPath : String) :
    Except Unit JValue := do
  let pathParts := jsSplitChar fieldPath '.'
  let result := JValue.spreadFields existingData
  if pathParts.length = 1 then
    .ok (.vobj (JValue.objSet result (pathParts.headD "") newData))
  else do
    let isGfb ← newData.truthyProp "isGlobalFieldBlock"
    if isGfb then do
      let gfName := JValue.keyString (← newData.getProp "globalFieldName")
      let blockKey := JValue.keyString (← newData.getProp "blockType")
      let fieldName := JValue.keyString (← newData.getProp "fieldName")
      let value ← newData.getProp "value"
      let gfFields ← asGlobalObject (JValue.objGet result gfName)
      let mbElems ← asBlockArray (JValue.objGet gfFields "modular_blocks")
      let idx ← findTruthyBlockIdx mbElems blockKey
      let mbElems' ←
        match idx with
        | some i => do
          let b := mbElems.getD i .vundef
          let b' ← setBlockField b blockKey fieldName value
          pure (mbElems.set i b')
        | none =>
          pure (mbElems ++ [.vobj [(blockKey, .vobj [(fieldName, value)])]])
      let gfFields' := JValue.objSet gfFields "modular_blocks" (.varr mbElems')
      .ok (.vobj (JValue.objSet result gfName (.vobj gfFields')))
    else do
      let hasBlockType ← newData.truthyProp "blockType"
      if pathParts.length = 3 ∧ hasBlockType then do
        let fieldName := pathParts.headD ""
        let blockKey := (pathParts.drop 1).headD ""
        let blockFieldName := (pathParts.drop 2).headD ""
        let value ← newData.getProp "value"
        let elems ← asBlockArray (JValue.objGet result fieldName)
        let idx ← findFirstKeyIdx elems blockKey
        let elems' ←
          match idx with
          | some i => do
            let b := elems.getD i .vundef
            let b' ← setBlockField b blockKey blockFieldName value
            pure (elems.set i b')
          | none =>
            pure (elems ++ [.vobj [(blockKey, .vobj [(blockFieldName, value)])]])
        .ok (.vobj (JValue.objSet result fieldName (.varr elems')))
      else do
        let isGf ← newData.truthyProp "isGlobalField"
        if pathParts.length ≥ 2 ∧ isGf then do
          let gfName := JValue.keyString (← newData.getProp "globalFieldName")
          let np ← newData.getProp "nestedPath"
          let keys ←
            match np with
            | .varr xs => Except.ok (xs.map JValue.keyString)
            | _ => Except.error ()
          let value ← newData.getProp "value"
          let gfFields ← asGlobalObject (JValue.objGet result gfName)
          let gfFields' ← setNestedPath gfFields keys value
          .ok (.vobj (JValue.objSet result gfName (.vobj gfFields')))
        else
          .ok (.vobj result)

/-- The container value `result[gf]` coerced for the global-field branch
of the older `mergeNestedData` variant: only `if (!result[gf]) result[gf]
= {}` (no `typeof === 'string'` check), so a truthy string container also
reaches the nested walk and the walk's first assignment then throws. -/
def asGlobalObjectLegacy (v : JValue) : Except Unit (List (String × JValue)) :=
  let base := if v.truthy then v else .vobj []
  match base with
  | .vobj fields => .ok fields
  | _ => .error ()

/-- `mergeNestedData` from the older utility variant (`src/unnamed/part_009`,
value level): no global-field-block branch, and no string check when
initialising the global-field container. -/
def mergeNestedDataLegacy (existingData newData : JValue)
    (fieldPath : String) : Except Unit JValue := do
  let pathParts := jsSplitChar fieldPath '.'
  let result := JValue.spreadFields existingData
  if pathParts.length = 1 then
    .ok (.vobj (JValue.objSet result (pathParts.headD "") newData))
  else do
    let hasBlockType ← newData.truthyProp "blockType"
    if pathParts.length = 3 ∧ hasBlockType then do
      let fieldName := pathParts.headD ""
      let blockKey := (pathParts.drop 1).headD ""
      let blockFieldName := (pathParts.drop 2).headD ""
      let value ← newData.getProp "value"
      let elems ← asBlockArray (JValue.objGet result fieldName)
      let idx ← findFirstKeyIdx elems blockKey
      let elems' ←
        match idx with
        | some i => do
          let b := elems.getD i .vundef
          let b' ← setBlockField b blockKey blockFieldName value
          pure (elems.set i b')
        | none =>
          pure (elems ++ [.vobj [(blockKey, .vobj [(blockFieldName, value)])]])
      .ok (.vobj (JValue.objSet result fieldName (.varr elems')))
    else do
      let isGf ← newData.truthyProp "isGlobalField"
      if pathParts.length ≥ 2 ∧ isGf then do
        let gfName := JValue.keyString (← newData.getProp "globalFieldName")
        let np ← newData.getProp "nestedPath"
        let keys ←
          match np with
          | .varr xs => Except.ok (xs.map JValue.keyString)
          | _ => Except.error ()
        let value ← newData.getProp "value"
        let gfFields ← asGlobalObjectLegacy (JValue.objGet result gfName)
        let gfFields' ← setNestedPath gfFields keys value
        .ok (.vobj (JValue.objSet result gfName (.vobj gfFields')))
      else
        .ok (.vobj result)

/-! ## The nested merge engine (store level)

`mergeNestedDataH` runs the same `mergeNestedData` from
`src/utils/fieldUtils.ts` over an explicit store of heap objects, so that
the shallow copy `{...existingData}` and the in-place writes to nested
containers are visible.  Addresses are indices into the store;
`alloc` appends. -/

/-- A JS value at the store level: primitives, or a reference to a heap
object. -/
inductive HVal : Type where
  | hnull
  | hundef
  | hbool (b : Bool)
  | hnum (q : Rat)
  | hstr (s : String)
  | href (a : Nat)
deriving DecidableEq, Repr

/-- A heap object: a JS object (ordered fields) or array. -/
inductive HObj : Type where
  | obj (fields : List (String × HVal))
  | arr (elems : List HVal)
deriving DecidableEq, Repr

/-- The heap: object at address `a` is `st[a]?`; allocation appends. -/
abbrev Store := List HObj

/-- Allocate a fresh heap object. -/
def allocH (st : Store) (o : HObj) : Store × Nat :=
  (st ++ [o], st.length)

/-- Truthiness at the store level (references are always truthy). -/
def hTruthy : HVal → Bool
  | .hnull => false
  | .hundef => false
  | .hbool b => b
  | .hnum q => !(q == 0)
  | .hstr s => !(s == "")
  | .href _ => true

/-- Read a field of the object at address `a`. -/
def hObjGet (st : Store) (a : Nat) (k : String) : Option HVal :=
  match st[a]? with
  | some (.obj fields) =>
    some (match fields.find? (fun p => p.1 == k) with
      | some p => p.2
      | none => .hundef)
  | _ => none

/-- Property read `recv[k]` at the store level: throws on `null` and
`undefined`; primitives and arrays yield `undefined` for the keys the
merge engine reads. -/
def hGetProp (st : Store) (v : HVal) (k : String) : Except Unit HVal :=
  match v with
  | .hnull => .error ()
  | .hundef => .error ()
  | .href a =>
    match hObjGet st a k with
    | some r => .ok r
    | none => .ok .hundef
  | _ => .ok (.hundef)

/-- Truthiness of `recv[k]` at the store level. -/
def hTruthyProp (st : Store) (v : HVal) (k : String) : Except Unit Bool := do
  let p ← hGetProp st v k
  pure (hTruthy p)

/-- Property assignment on a store object's field list (same JS
semantics as `JValue.objSet`). -/
def hSetKey (fields : List (String × HVal)) (k : String) (v : HVal) :
    List (String × HVal) :=
  match fields with
  | [] => [(k, v)]
  | p :: rest => if p.1 = k then (k, v) :: rest else p :: hSetKey rest k v

/-- Property assignment `obj[k] = v` on the object at address `a`
(in place); assigning to anything but a plain object throws here (strict
mode) or is out of the importer's data shape (array properties). -/
def hSetProp (st : Store) (a : Nat) (k : String) (v : HVal) :
    Except Unit Store :=
  match st[a]? with
  | some (.obj fields) => .ok (st.set a (.obj (hSetKey fields k v)))
  | _ => .error ()

/-- Replace the element list of the array at address `a` (models
`array.push(...)` on that array). -/
def hSetArr (st : Store) (a : Nat) (elems : List HVal) :
    Except Unit Store :=
  match st[a]? with
  | some (.arr _) => .ok (st.set a (.arr elems))
  | _ => .error ()

/-- Property-key coercion at the store level. -/
def hKeyString : HVal → String
  | .hstr s => s
  | .hnull => "null"
  | .hundef => "undefined"
  | .hbool b => if b then "true" else "false"
  | .hnum q => toString q
  | .href _ => "[object Object]"

/-- The fields contributed by `{...existingData}` at the store level. -/
def hSpreadFields (st : Store) : HVal → List (String × HVal)
  | .href a =>
    match st[a]? with
    | some (.obj fields) => fields
    | _ => []
  | _ => []

/-- `Object.keys(block)[0]` at the store level. -/
def hFirstKey (st : Store) : HVal → Except Unit (Option String)
  | .hnull => .error ()
  | .hundef => .error ()
  | .href a =>
    match st[a]? with
    | some (.obj []) => .ok none
    | some (.obj (p :: _)) => .ok (some p.1)
    | _ => .ok none
  | _ => .ok none

/-- Find the first `modular_blocks` element with `b[blockKey]` truthy. -/
def hFindTruthyBlockIdx (st : Store) (elems : List HVal) (blockKey : String) :
    Except Unit (Option Nat) :=
  match elems with
  | [] => .ok none
  | b :: rest => do
    let t ← hTruthyProp st b blockKey
    if t then .ok (some 0)
    else do
      let r ← hFindTruthyBlockIdx st rest blockKey
      .ok (r.map (· + 1))

/-- Find the first element whose first key equals `blockKey`. -/
def hFindFirstKeyIdx (st : Store) (elems : List HVal) (blockKey : String) :
    Except Unit (Option Nat) :=
  match elems with
  | [] => .ok none
  | b :: rest => do
    let k ← hFirstKey st b
    if k = some blockKey then .ok (some 0)
    else do
      let r ← hFindFirstKeyIdx st rest blockKey
      .ok (r.map (· + 1))

/-- The address of the container array for a block branch, creating the
`[]` just assigned when the current value is falsy; a truthy non-array
makes `.find` throw. -/
def hEnsureArray (st : Store) (holder : Nat) (k : String) :
    Except Unit (Store × Nat) := do
  let cur ← hGetProp st (.href holder) k
  if hTruthy cur then
    match cur with
    | .href a =>
      match st[a]? with
      | some (.arr _) => .ok (st, a)
      | _ => .error ()
    | _ => .error ()
  else do
    let (st1, a) := allocH st (.arr [])
    let st2 ← hSetProp st1 holder k (.href a)
    .ok (st2, a)

/-- The address of the global-field container object, replacing a falsy
or string value with a fresh `{}` as the source does; a remaining truthy
non-object fails the subsequent accesses. -/
def hEnsureGlobalObject (st : Store) (holder : Nat) (k : String) :
    Except Unit (Store × Nat) := do
  let cur ← hGetProp st (.href holder) k
  let fresh := !(hTruthy cur) ||
    (match cur with | .hstr _ => true | _ => false)
  if fresh then do
    let (st1, a) := allocH st (.obj [])
    let st2 ← hSetProp st1 holder k (.href a)
    .ok (st2, a)
  else
    match cur with
    | .href a =>
      match st[a]? with
      | some (.obj _) => .ok (st, a)
      | _ => .error ()
    | _ => .error ()

/-- `existingBlock[blockKey][fieldName] = value` at the store level:
mutates the inner object in place. -/
def hSetBlockField (st : Store) (block : HVal) (blockKey fieldName : String)
    (v : HVal) : Except Unit Store := do
  let inner ← hGetProp st block blockKey
  match inner with
  | .href ia =>
    match st[ia]? with
    | some (.obj _) => hSetProp st ia fieldName v
    | _ => .error ()
  | _ => .error ()

/-- Append a fresh `{ [blockKey]: { [fieldName]: value } }` element to the
array at `arrAddr` (the `push` of a new block followed by the write into
it). -/
def hAppendBlock (st : Store) (arrAddr : Nat) (elems : List HVal)
    (blockKey fieldName : String) (v : HVal) : Except Unit Store := do
  let (st1, innerA) := allocH st (.obj [(fieldName, v)])
  let (st2, blockA) := allocH st1 (.obj [(blockKey, .href innerA)])
  hSetArr st2 arrAddr (elems ++ [.href blockA])

/-- The global-field nested walk at the store level: create missing
intermediates, then assign the final key in place. -/
def hSetNestedPath (st : Store) (a : Nat) (ks : List String) (v : HVal) :
    Except Unit Store :=
  match ks with
  | [] => hSetProp st a "undefined" v
  | [k] => hSetProp st a k v
  | k :: rest => do
    let cur ← hGetProp st (.href a) k
    if hTruthy cur then
      match cur with
      | .href c =>
        match st[c]? with
        | some (.obj _) => hSetNestedPath st c rest v
        | _ => .error ()
      | _ => .error ()
    else do
      let (st1, c) := allocH st (.obj [])
      let st2 ← hSetProp st1 a k (.href c)
      hSetNestedPath st2 c rest v

/-- `mergeNestedData` from `src/utils/fieldUtils.ts` at the store level:
the result is a fresh shallow copy of the input document, and the block
and global-field branches write through whatever nested containers the
copy shares with the input. -/
def mergeNestedDataH (st : Store) (existingData newData : HVal)
    (fieldPath : String) : Except Unit (Store × HVal) := do
  let pathParts := jsSplitChar fieldPath '.'
  let (st1, r) := allocH st (.obj (hSpreadFields st existingData))
  if pathParts.length = 1 then do
    let st2 ← hSetProp st1 r (pathParts.headD "") newData
    .ok (st2, .href r)
  else do
    let isGfb ← hTruthyProp st1 newData "isGlobalFieldBlock"
    if isGfb then do
      let gfName := hKeyString (← hGetProp st1 newData "globalFieldName")
      let blockKey := hKeyString (← hGetProp st1 newData "blockType")
      let fieldName := hKeyString (← hGetProp st1 newData "fieldName")
      let value ← hGetProp st1 newData "value"
      let (st2, gfA) ← hEnsureGlobalObject st1 r gfName
      let (st3, mbA) ← hEnsureArray st2 gfA "modular_blocks"
      let elems ←
        match st3[mbA]? with
        | some (.arr es) => Except.ok es
        | _ => Except.error ()
      let idx ← hFindTruthyBlockIdx st3 elems blockKey
      let st4 ←
        match idx with
        | some i => hSetBlockField st3 (elems.getD i .hundef) blockKey fieldName value
        | none => hAppendBlock st3 mbA elems blockKey fieldName value
      .ok (st4, .href r)
    else do
      let hasBlockType ← hTruthyProp st1 newData "blockType"
      if pathParts.length = 3 ∧ hasBlockType then do
        let fieldName := pathParts.headD ""
        let blockKey := (pathParts.drop 1).headD ""
        let blockFieldName := (pathParts.drop 2).headD ""
        let value ← hGetProp st1 newData "value"
        let (st2, arrA) ← hEnsureArray st1 r fieldName
        let elems ←
          match st2[arrA]? with
          | some (.arr es) => Except.ok es
          | _ => Except.error ()
        let idx ← hFindFirstKeyIdx st2 elems blockKey
        let st3 ←
          match idx with
          | some i =>
            hSetBlockField st2 (elems.getD i .hundef) blockKey blockFieldName value
          | none => hAppendBlock st2 arrA elems blockKey blockFieldName value
        .ok (st3, .href r)
      else do
        let isGf ← hTruthyProp st1 newData "isGlobalField"
        if pathParts.length ≥ 2 ∧ isGf then do
          let gfName := hKeyString (← hGetProp st1 newData "globalFieldName")
          let np ← hGetProp st1 newData "nestedPath"
          let keys ←
            match np with
            | .href na =>
              match st1[na]? with
              | some (.arr xs) => Except.ok (xs.map hKeyString)
              | _ => Except.error ()
            | _ => Except.error ()
          let value ← hGetProp st1 newData "value"
          let (st2, gfA) ← hEnsureGlobalObject st1 r gfName
          let st3 ← hSetNestedPath st2 gfA keys value
          .ok (st3, .href r)
        else
          .ok (st1, .href r)

/-- Read the value tree reachable from a store value, to the given depth
(enough depth recovers the whole tree on acyclic stores); used to observe
whether the structure reachable from the input document changed. -/
def readVal (st : Store) : Nat → HVal → JValue
  | _, .hnull => .vnull
  | _, .hundef => .vundef
  | _, .hbool b => .vbool b
  | _, .hnum q => .vnum q
  | _, .hstr s => .vstr s
  | 0, .href _ => .vundef
  | fuel + 1, .href a =>
    match st[a]? with
    | some (.obj fields) =>
      .vobj (fields.map (fun p => (p.1, readVal st fuel p.2)))
    | some (.arr xs) => .varr (xs.map (readVal st fuel))
    | none => (.vundef)

/-! ## The field matcher

`findMatchingField` with its helpers `normalizeText` and
`getTextVariations`, from the FieldMatcher module.  The JS regex
replacements are implemented as equivalent structural passes over the
character list. -/

/-- Does `cs` start with `needle`? -/
def startsWithL : List Char → List Char → Bool
  | _, [] => true
  | [], _ :: _ => false
  | a :: as', b :: bs => a = b && startsWithL as' bs

/-- Does `hay` contain `needle` as a contiguous substring
(JS `hay.includes(needle)`)? -/
def containsSubL (hay needle : List Char) : Bool :=
  match hay with
  | [] => needle.isEmpty
  | _ :: rest => startsWithL hay needle || containsSubL rest needle

/-- JS `hay.includes(needle)`. -/
def jsIncludes (hay needle : String) : Bool :=
  containsSubL hay.data needle.data

/-- Split on every occurrence of a substring (the skeleton of a global
regex replacement with a literal head).  The fuel is the string length
plus one; every step consumes at least one character. -/
def splitOnSubAux (needle : List Char) :
    Nat → List Char → List Char → List String
  | 0, cs, acc => [(⟨acc.reverse ++ cs⟩ : String)]
  | fuel + 1, cs, acc =>
    if needle ≠ [] ∧ startsWithL cs needle then
      (⟨acc.reverse⟩ : String) ::
        splitOnSubAux needle fuel (cs.drop needle.length) []
    else
      match cs with
      | [] => [(⟨acc.reverse⟩ : String)]
      | c :: cs' => splitOnSubAux needle fuel cs' (c :: acc)

/-- Split a string on every occurrence of `needle`. -/
def splitOnSub (s needle : String) : List String :=
  splitOnSubAux needle.data (s.data.length + 1) s.data []

/-- Drop leading JS whitespace. -/
def ltrimWs (s : String) : String :=
  ⟨s.data.dropWhile jsWs⟩

/-- Drop trailing JS whitespace. -/
def rtrimWs (s : String) : String :=
  ⟨(s.data.reverse.dropWhile jsWs).reverse⟩

/-- Collapse every whitespace run to a single space
(`replace(/\s+/g, ' ')`); the flag records whether the previous character
belonged to a run already collapsed. -/
def collapseWsAux : Bool → List Char → List Char
  | _, [] => []
  | prevWs, c :: cs =>
    if jsWs c then
      (if prevWs then [] else [' ']) ++ collapseWsAux true cs
    else c :: collapseWsAux false cs

/-- `normalizeText` from the FieldMatcher module: lowercase, strip
characters outside `[a-z0-9\s]`, collapse whitespace, trim. -/
def normalizeText (text : String) : String :=
  let lowered := jsToLower text
  let cleaned := lowered.data.filter fun c =>
    (97 ≤ c.toNat ∧ c.toNat ≤ 122) ∨ (48 ≤ c.toNat ∧ c.toNat ≤ 57) ∨ jsWs c
  jsTrim ⟨collapseWsAux false cleaned⟩

/-- `replace(/display\s*/g, '')`: each occurrence of `display` plus the
following whitespace run is removed. -/
def removeDisplayRuns (s : String) : String :=
  match splitOnSub s "display" with
  | [] => ""
  | p :: ps => p ++ String.join (ps.map ltrimWs)

/-- Glue the pieces after the first `title` occurrence back together for
`replace(/\s*title\s*/g, 'title')`: middle pieces lose the whitespace on
both sides (consumed by the matches around them), the last piece only its
leading whitespace. -/
def titleJoin : List String → String
  | [] => ""
  | [q] => ltrimWs q
  | q :: qs => ltrimWs (rtrimWs q) ++ "title" ++ titleJoin qs

/-- `replace(/\s*title\s*/g, 'title')`. -/
def normalizeTitleRuns (s : String) : String :=
  match splitOnSub s "title" with
  | [] => ""
  | [p] => p
  | p :: ps => rtrimWs p ++ "title" ++ titleJoin ps

/-- The fixed synonym table of `getTextVariations`, in source order. -/
def synonymTable : List (String × List String) :=
  [ ("title", ["display title", "entry title", "name"]),
    ("body", ["content", "description", "text"]),
    ("url", ["link", "href", "website"]),
    ("publication date", ["published date", "publish date", "date published"]),
    ("expiration date", ["expire date", "end date", "expires"]) ]

/-- Keep the first occurrence of each string (`[...new Set(xs)]`). -/
def dedupKeepFirst (xs : List String) : List String :=
  (xs.foldl
    (fun acc x => if acc.contains x then acc else acc ++ [x]) [])

/-- `getTextVariations` from the FieldMatcher module. -/
def getTextVariations (text : String) : List String :=
  let normalized := normalizeText text
  let variations :=
    [ normalized,
      ⟨normalized.data.filter (fun c => !(jsWs c))⟩,
      ⟨normalized.data.map (fun c => if jsWs c then '_' else c)⟩,
      removeDisplayRuns normalized,
      normalizeTitleRuns normalized ]
  let extra := synonymTable.flatMap fun kv =>
    (if kv.2.any (fun v => jsIncludes normalized v) then [kv.1] else []) ++
      (if normalized = kv.1 then kv.2 else [])
  dedupKeepFirst (variations ++ extra)

/-- The matcher's result record. -/
structure MatchResult where
  matchingField : Option FlattenedField
  confidence : Nat
deriving DecidableEq, Repr

/-- All variations of a candidate field's identifiers. -/
def fieldVariations (f : FlattenedField) : List String :=
  getTextVariations f.uid ++ getTextVariations f.display_name ++
    getTextVariations f.fieldPath

/-- The heuristic confidence for one field: 80 when some variation pair
matches with length above 2, else 0. -/
def variationConfidence (csvVars fieldVars : List String) : Nat :=
  if csvVars.any (fun cv =>
      fieldVars.any (fun fv => cv = fv && decide (2 < jsLen cv))) then 80
  else 0

/-- The matcher loop: an exact `uid` / `display_name` / `fieldPath` match
returns immediately with confidence 100 / 95 / 90; otherwise the best
heuristic candidate is tracked and accepted at the end when its
confidence reaches the 70 floor. -/
def findLoop (csvHeader : String) (csvVars : List String) :
    List FlattenedField → Option FlattenedField → Nat → MatchResult
  | [], best, bestConf =>
    match best with
    | some b => if 70 ≤ bestConf then ⟨some b, bestConf⟩ else ⟨none, 0⟩
    | none => ⟨none, 0⟩
  | f :: rest, best, bestConf =>
    if f.uid = csvHeader then ⟨some f, 100⟩
    else if f.display_name = csvHeader then ⟨some f, 95⟩
    else if f.fieldPath = csvHeader then ⟨some f, 90⟩
    else
      let c := variationConfidence csvVars (fieldVariations f)
      if bestConf < c then findLoop csvHeader csvVars rest (some f) c
      else findLoop csvHeader csvVars rest best bestConf

/-- `findMatchingField` from the FieldMatcher module. -/
def findMatchingField (csvHeader : String) (fields : List FlattenedField) :
    MatchResult :=
  findLoop csvHeader (getTextVariations csvHeader) fields none 0

/-! ## Value transformers

Three `transformValue` implementations exist in the sources; all are
embedded.  `Number`, `parseFloat` and `new Date(...).toISOString()` are
abstracted as oracles:
`numO value = none` models `Number(value)` being `NaN`;
`dateO value = none` models `toISOString()` throwing on an invalid date;
`pfO` is the raw `parseFloat` result. -/

/-- A field mapping (`FieldMapping` in `types/contentstack.ts`);
`contentstackField` holds the target field path or `"skip"`. -/
structure FieldMapping where
  csvColumn : String
  contentstackField : String
  fieldType : String
  isRequired : Bool
  referenceContentType : Option String := none
  blockType : Option String := none
  parentField : Option String := none
  selectOptions : Option (List SelectOption) := none
deriving DecidableEq, Repr

/-- Truthiness of an optional string property (`mapping.blockType`):
absent or empty is falsy. -/
def optTruthy : Option String → Bool
  | none => false
  | some s => !(s == "")

/-- Case-insensitive equality as the sources write it
(`a.toLowerCase() === b.toLowerCase()`). -/
def ciEq (a b : String) : Bool :=
  jsToLower a == jsToLower b

/-- The select-matching cascade of the hook's `transformValue`
(`useImportOperations.tsx`): exact match, then case-insensitive match,
then partial (substring containment either way); an unmatched value
yields `null`. -/
def selectPartialPred (o : SelectOption) (value : String) : Bool :=
  jsIncludes (jsToLower o.value) (jsToLower value) ||
  jsIncludes (jsToLower o.text) (jsToLower value) ||
  jsIncludes (jsToLower value) (jsToLower o.value) ||
  jsIncludes (jsToLower value) (jsToLower o.text)

def selectMatchHook (opts : List SelectOption) (value : String) : JValue :=
  let exact := opts.find? fun o => o.value == value || o.text == value
  let ci :=
    match exact with
    | some o => some o
    | none => opts.find? fun o => ciEq o.value value || ciEq o.text value
  let part :=
    match ci with
    | some o => some o
    | none => opts.find? fun o => selectPartialPred o value
  match part with
  | some o => .vstr o.value
  | none => .vnull

/-- `transformValue` from `useImportOperations.tsx` (the hook used by the
current import path).  There is no `reference` case: reference-typed
mappings fall through to the default string passthrough. -/
def transformValueHook (numO : String → Option Rat)
    (dateO : String → Option String) (value : String) (m : FieldMapping) :
    JValue :=
  if m.fieldType = "file" then .vnull
  else if m.fieldType = "number" then
    match numO value with
    | some q => .vnum q
    | none => .vnull
  else if m.fieldType = "boolean" then
    let lower := jsToLower value
    if lower = "true" ∨ lower = "1" then .vbool true
    else if lower = "false" ∨ lower = "0" then .vbool false
    else .vnull
  else if m.fieldType = "date" then
    match dateO value with
    | some iso => .vstr iso
    | none => .vnull
  else if m.fieldType = "select" then
    match m.selectOptions with
    | some opts =>
      if opts.length > 0 then selectMatchHook opts value else .vstr value
    | none => .vstr value
  else .vstr value

/-- `transformValue` from the first `ImportProgress.tsx` variant: like the
hook's but the select cascade stops after the case-insensitive match
(no partial fallback), and likewise has no `reference` case. -/
def transformValueProgress (numO : String → Option Rat)
    (dateO : String → Option String) (value : String) (m : FieldMapping) :
    JValue :=
  if m.fieldType = "file" then .vnull
  else if m.fieldType = "number" then
    match numO value with
    | some q => .vnum q
    | none => .vnull
  else if m.fieldType = "boolean" then
    let lower := jsToLower value
    if lower = "true" ∨ lower = "1" then .vbool true
    else if lower = "false" ∨ lower = "0" then .vbool false
    else .vnull
  else if m.fieldType = "date" then
    match dateO value with
    | some iso => .vstr iso
    | none => .vnull
  else if m.fieldType = "select" then
    match m.selectOptions with
    | some opts =>
      if opts.length > 0 then
        match opts.find? (fun o => ciEq o.value value || ciEq o.text value) with
        | some o => .vstr o.value
        | none => .vnull
      else .vstr value
    | none => .vstr value
  else .vstr value

/-- `transformValue` from the legacy `ImportProgress.tsx` variant
(`transformValue(value, fieldType)`): blank input is `null`; a reference
wraps the raw string as `[{uid: value}]`; numbers are raw `parseFloat`
results; booleans never yield `null`; an invalid date throws
(`Except`-style `none` here, as the variant has no try/catch). -/
def transformValueLegacy (pfO : String → JValue)
    (dateO : String → Option String) (value : String) (fieldType : String) :
    Option JValue :=
  if value = "" ∨ jsTrim value = "" then some .vnull
  else if fieldType = "number" then some (pfO value)
  else if fieldType = "boolean" then
    some (.vbool (jsToLower value == "true" || value == "1"))
  else if fieldType = "date" then
    match dateO value with
    | some iso => some (.vstr iso)
    | none => none
  else if fieldType = "reference" then
    some (.varr [.vobj [("uid", .vstr value)]])
  else some (.vstr value)

/-- `transformNestedValue` from `src/utils/fieldUtils.ts`: routes a cell
to the per-type transformer (`tf`, passed in by the caller exactly as in
the source) and wraps the result in the tagged record the merge engine
expects for block and global-field paths. -/
def transformNestedValue (tf : String → FieldMapping → JValue)
    (value : String) (fieldPath : String) (m : FieldMapping) : JValue :=
  if value = "" ∨ jsTrim value = "" then .vnull
  else
    let pathParts := jsSplitChar fieldPath '.'
    if pathParts.length = 1 then tf value m
    else if pathParts.length = 4 ∧ (pathParts.drop 1).headD "" = "modular_blocks"
        ∧ optTruthy m.blockType then
      .vobj
        [ ("isGlobalFieldBlock", .vbool true),
          ("globalFieldName", .vstr (pathParts.headD "")),
          ("blockType", .vstr (m.blockType.getD "")),
          ("fieldName", .vstr ((pathParts.drop 3).headD "")),
          ("value", tf value m) ]
    else if pathParts.length = 3 ∧ optTruthy m.blockType then
      .vobj
        [ ("blockType", .vstr (m.blockType.getD "")),
          ("fieldName", .vstr ((pathParts.drop 2).headD "")),
          ("value", tf value m) ]
    else if 2 ≤ pathParts.length ∧ ¬ optTruthy m.blockType then
      .vobj
        [ ("fieldName", .vstr (pathParts.getLastD "")),
          ("value", tf value m),
          ("isGlobalField", .vbool true),
          ("globalFieldName", .vstr (pathParts.headD "")),
          ("nestedPath", .varr ((pathParts.drop 1).map JValue.vstr)) ]
    else tf value m

/-! ## The per-row importer

`handleCreateOrUpdateEntry` and `startImport` from
`useImportOperations.tsx`.  The HTTP transport is abstracted by an
`EntryOracle` giving each call's outcome, and every call issued is
recorded in a trace, so "no transport call is made" is a statement about
the trace.  Logging (`addLog`) and timestamps are UI state and are not
modelled. -/

/-- One CSV row, as the parsed record from header to cell text. -/
abbrev Row := List (String × String)

/-- `row[mapping.csvColumn]` (an absent column reads as `undefined`). -/
def lookupRow (row : Row) (col : String) : Option String :=
  (row.find? (fun p => p.1 == col)).map (·.2)

/-- Truthiness of a cell (`!csvValue`): missing or empty is falsy. -/
def cellTruthy : Option String → Bool
  | none => false
  | some s => !(s == "")

/-- Why the row loop stopped before producing a document. -/
inductive BuildFail : Type where
  | missingRequired (field : String)
  | thrown
deriving DecidableEq, Repr

/-- JS `transformedValue === null`. -/
def isVNull : JValue → Bool
  | .vnull => true
  | _ => false

/-- The merge step for one non-skip mapping with a truthy, non-null
transformed cell: a global-field mapping is re-wrapped as
`{lastSegment: value}` and merged at the path head, anything else is
merged at its own path. -/
def mergeStep (tf : String → FieldMapping → JValue) (m : FieldMapping)
    (row : Row) (acc : JValue) : Except Unit JValue :=
  let v := (lookupRow row m.csvColumn).getD ""
  let tv := transformNestedValue tf v m.contentstackField m
  if m.fieldType = "global_field" then
    let parts := jsSplitChar m.contentstackField '.'
    mergeNestedData acc (.vobj [(parts.getLastD "", tv)]) (parts.headD "")
  else
    mergeNestedData acc tv m.contentstackField

/-- The field-mapping loop of `handleCreateOrUpdateEntry`: skip mappings
are ignored; an empty cell of a required mapping aborts the row; `null`
transformed values are skipped; global-field mappings are re-wrapped and
merged at the path head; a JS exception inside the merge surfaces as
`thrown` (caught by the surrounding `try`). -/
def buildEntryData (tf : String → FieldMapping → JValue) :
    List FieldMapping → Row → JValue → Except BuildFail JValue
  | [], _, acc => .ok acc
  | m :: rest, row, acc =>
    if m.contentstackField = "skip" then buildEntryData tf rest row acc
    else
      let csvValue := lookupRow row m.csvColumn
      if ¬ cellTruthy csvValue ∧ m.isRequired then
        .error (.missingRequired m.contentstackField)
      else if cellTruthy csvValue then
        let v := csvValue.getD ""
        let tv := transformNestedValue tf v m.contentstackField m
        if isVNull tv then buildEntryData tf rest row acc
        else
          match mergeStep tf m row acc with
          | .ok acc' => buildEntryData tf rest row acc'
          | .error _ => .error .thrown
      else buildEntryData tf rest row acc

/-- A transport call issued by the row handler. -/
inductive TransportCall : Type where
  | search (titleKey : String)
  | create
  | update (uid : String)
  | publish (uid : String)
deriving DecidableEq, Repr

/-- Outcomes of the transport calls, per call site.  `searchOutcome`:
`none` models a failed or throwing search (treated as "not found"),
`some none` an empty result, `some (some (uid, entry))` a hit.
`createOutcome` / `updateOutcome`: `none` models a thrown error, `some
uid` the `responseData.entry.uid`.  `publishOutcome`: whether the publish
call succeeded. -/
structure EntryOracle where
  searchOutcome : String → Option (Option (String × JValue))
  createOutcome : JValue → Option String
  updateOutcome : String → JValue → Option String
  publishOutcome : String → Bool

/-- JS `a || b`. -/
def jsOr (a b : JValue) : JValue :=
  if a.truthy then a else b

/-- `findExistingEntry`: look up a unique identifier
(`entryData.title || entryData.name || entryData.slug`) and search by it;
with no identifier no request is made. -/
def findExistingEntry (oracle : EntryOracle)
    (fields : List (String × JValue)) :
    Option (String × JValue) × List TransportCall :=
  let titleField :=
    jsOr (JValue.objGet fields "title")
      (jsOr (JValue.objGet fields "name") (JValue.objGet fields "slug"))
  if titleField.truthy then
    let key := JValue.keyString titleField
    match oracle.searchOutcome key with
    | some (some e) => (some e, [.search key])
    | _ => (none, [.search key])
  else (none, [])

/-- Is the value a JS object for `typeof` purposes (`typeof null` is
`'object'`)? -/
def typeofObject : JValue → Bool
  | .varr _ => true
  | .vobj _ => true
  | .vnull => true
  | _ => false

/-- Is the value a heap entity (so JS `!==` compares references, which
for the entry-vs-response values at hand are always distinct)? -/
def isContainer : JValue → Bool
  | .varr _ => true
  | .vobj _ => true
  | _ => false

/-- JS `newData[key] !== existingData[key]` as observed here: primitive
pairs compare by value, anything involving a fresh container is
reference-unequal. -/
def strictNeq (v e : JValue) : Bool :=
  if isContainer v || isContainer e then true
  else
    match v, e with
    | .vnull, .vnull => false
    | .vundef, .vundef => false
    | .vbool a, .vbool b => !(a == b)
    | .vnum a, .vnum b => !(a == b)
    | .vstr a, .vstr b => !(a == b)
    | _, _ => true

mutual

/-- Structural equality of values, standing in for comparing
`JSON.stringify` output. -/
def jvalBeq : JValue → JValue → Bool
  | .vnull, .vnull => true
  | .vundef, .vundef => true
  | .vbool a, .vbool b => a == b
  | .vnum a, .vnum b => a == b
  | .vstr a, .vstr b => a == b
  | .varr xs, .varr ys => jvalBeqList xs ys
  | .vobj xs, .vobj ys => jvalBeqFields xs ys
  | _, _ => false

/-- Elementwise equality of arrays. -/
def jvalBeqList : List JValue → List JValue → Bool
  | [], [] => true
  | x :: xs, y :: ys => jvalBeq x y && jvalBeqList xs ys
  | _, _ => false

/-- Ordered equality of object fields. -/
def jvalBeqFields :
    List (String × JValue) → List (String × JValue) → Bool
  | [], [] => true
  | (k, x) :: xs, (l, y) :: ys => k == l && jvalBeq x y && jvalBeqFields xs ys
  | _, _ => false

end

/-- `compareEntryData` from `useImportOperations.tsx`: for every key of
the new data, values must agree — nested objects by stringified
comparison, primitives by strict equality; `true` means "same data,
skip". -/
def compareEntryData (existing : JValue) (newFields : List (String × JValue)) :
    Bool :=
  newFields.all fun p =>
    let e :=
      match existing with
      | .vobj fs => JValue.objGet fs p.1
      | _ => .vundef
    if strictNeq p.2 e then
      if typeofObject p.2 && typeofObject e then jvalBeq p.2 e
      else false
    else true

/-- The model's per-row result record (`ImportResult` in
`types/contentstack.ts`). -/
structure ImportResultM where
  rowIndex : Nat
  success : Bool
  entryUid : Option String := none
  error : Option String := none
  published : Option Bool := none
  skipped : Option Bool := none
  updated : Option Bool := none
deriving DecidableEq, Repr

/-- The create-or-update tail of the row handler, after a document was
built: search for an existing entry, skip/update/create accordingly, and
optionally publish. -/
def createOrUpdateTail (oracle : EntryOracle) (shouldPublish : Bool)
    (entry : JValue) (rowIndex : Nat) : ImportResultM × List TransportCall :=
  let fields :=
    match entry with
    | .vobj fs => fs
    | _ => []
  let (found, calls) := findExistingEntry oracle fields
  let afterWrite := fun (uid : String) (isUpdate : Bool)
      (calls' : List TransportCall) =>
    if shouldPublish then
      if oracle.publishOutcome uid then
        ({ rowIndex := rowIndex, success := true, entryUid := some uid,
           published := some true, updated := some isUpdate },
          calls' ++ [.publish uid])
      else
        ({ rowIndex := rowIndex, success := true, entryUid := some uid,
           published := some false, error := some "publish failed",
           updated := some isUpdate },
          calls' ++ [.publish uid])
    else
      ({ rowIndex := rowIndex, success := true, entryUid := some uid,
         updated := some isUpdate }, calls')
  match found with
  | some (uid, existingData) =>
    if compareEntryData existingData fields then
      ({ rowIndex := rowIndex, success := true, entryUid := some uid,
         skipped := some true }, calls)
    else
      match oracle.updateOutcome uid entry with
      | none =>
        ({ rowIndex := rowIndex, success := false,
           error := some "update failed" }, calls ++ [.update uid])
      | some respUid => afterWrite respUid true (calls ++ [.update uid])
  | none =>
    match oracle.createOutcome entry with
    | none =>
      ({ rowIndex := rowIndex, success := false,
         error := some "create failed" }, calls ++ [.create])
    | some respUid => afterWrite respUid false (calls ++ [.create])

/-- `handleCreateOrUpdateEntry` from `useImportOperations.tsx`: build the
document from the row (aborting on a missing required cell before any
request), then run the transport tail; the trace records every transport
call issued. -/
def handleCreateOrUpdateEntry (oracle : EntryOracle) (shouldPublish : Bool)
    (tf : String → FieldMapping → JValue) (mappings : List FieldMapping)
    (row : Row) (rowIndex : Nat) : ImportResultM × List TransportCall :=
  match buildEntryData tf mappings row (.vobj []) with
  | .error (.missingRequired f) =>
    ({ rowIndex := rowIndex, success := false,
       error := some ("Missing required field: " ++ f) }, [])
  | .error .thrown =>
    ({ rowIndex := rowIndex, success := false,
       error := some "Unexpected error" }, [])
  | .ok entry => createOrUpdateTail oracle shouldPublish entry rowIndex

/-- The row loop of `startImport`: rows are processed strictly in order,
one result per row, regardless of earlier failures. -/
def startImportResults (oracle : EntryOracle) (shouldPublish : Bool)
    (tf : String → FieldMapping → JValue) (mappings : List FieldMapping)
    (rows : List Row) : List ImportResultM :=
  (List.range rows.length).map fun i =>
    (handleCreateOrUpdateEntry oracle shouldPublish tf mappings
      (rows.getD i []) i).1

/-! ## Helper lemmas -/

theorem objGet_nil (k : String) : JValue.objGet [] k = .vundef := rfl

theorem objGet_cons (p : String × JValue) (rest : List (String × JValue))
    (k : String) :
    JValue.objGet (p :: rest) k =
      if p.1 = k then p.2 else JValue.objGet rest k := by
  by_cases h : p.1 = k <;> simp [JValue.objGet, List.find?_cons, h]

theorem objSet_objSet_same (l : List (String × JValue)) (k : String)
    (v w : JValue) :
    JValue.objSet (JValue.objSet l k v) k w = JValue.objSet l k w := by
  induction l with
  | nil => simp [JValue.objSet]
  | cons p rest ih =>
    by_cases hp : p.1 = k <;> simp [JValue.objSet, hp, ih]

theorem objGet_objSet_self (l : List (String × JValue)) (k : String)
    (v : JValue) :
    JValue.objGet (JValue.objSet l k v) k = v := by
  induction l with
  | nil => simp [JValue.objSet, JValue.objGet]
  | cons p rest ih =>
    by_cases hp : p.1 = k <;> simp [JValue.objSet, objGet_cons, hp, ih]

/-- C10 helper: the tag reads a plain value provides to the merge engine. -/
def untaggedValue (v : JValue) : Prop :=
  v.truthyProp "isGlobalFieldBlock" = .ok false ∧
  v.truthyProp "blockType" = .ok false ∧
  v.truthyProp "isGlobalField" = .ok false

/-- C10: a merged value carrying none of the routing tags
(`blockType`, `isGlobalField`, `isGlobalFieldBlock`) — in particular any
plain scalar — is silently dropped at any multi-segment path: both merge
variants return a copy of the document with no field added or changed,
and no error. -/
theorem mergeNestedData_untagged_multisegment_noop
    (flds : List (String × JValue)) (v : JValue) (p : String)
    (h2 : 2 ≤ (jsSplitChar p '.').length)
    (hv : untaggedValue v) :
    mergeNestedData (.vobj flds) v p = .ok (.vobj flds) ∧
    mergeNestedDataLegacy (.vobj flds) v p = .ok (.vobj flds) := by
  obtain ⟨hgfb, hbt, hgf⟩ := hv
  have hne1 : ¬((jsSplitChar p '.').length = 1) := by omega
  constructor
  · simp [mergeNestedData, JValue.spreadFields, hne1, hgfb, hbt, hgf,
      Bind.bind, Except.bind]
  · simp [mergeNestedDataLegacy, JValue.spreadFields, hne1, hbt, hgf,
      Bind.bind, Except.bind]

/-- C10 witness: the string `"y"` merged at `"b.c"` into `{a: "x"}`
leaves the document unchanged. -/
theorem mergeNestedData_untagged_multisegment_noop_witness :
    2 ≤ (jsSplitChar "b.c" '.').length ∧
    untaggedValue (.vstr "y") ∧
    (mergeNestedData (.vobj [("a", .vstr "x")]) (.vstr "y") "b.c" =
        .ok (.vobj [("a", .vstr "x")]) ∧
      mergeNestedDataLegacy (.vobj [("a", .vstr "x")]) (.vstr "y") "b.c" =
        .ok (.vobj [("a", .vstr "x")])) :=
  ⟨by decide, ⟨rfl, rfl, rfl⟩,
    mergeNestedData_untagged_multisegment_noop [("a", .vstr "x")]
      (.vstr "y") "b.c" (by decide) ⟨rfl, rfl, rfl⟩⟩

/-- C5 counterexample: merging `null` at the single-segment path `"age"`
into the empty document does not return the document unchanged — it
stores an explicit `null` field. -/
theorem mergeNestedData_null_not_noop_counterexample :
    mergeNestedData (.vobj []) .vnull "age" =
      .ok (.vobj [("age", .vnull)]) ∧
    (Except.ok (.vobj [("age", JValue.vnull)]) : Except Unit JValue) ≠
      .ok (.vobj []) := by
  refine ⟨rfl, ?_⟩
  intro h
  simp at h

/-- C5 amended: `mergeNestedData` has no null check.  At a single-segment
path it stores the explicit `null` under that key; at any deeper path the
routing-tag reads on `null` throw a `TypeError`; the import loop itself
never hands `null` to the merge, because `handleCreateOrUpdateEntry`
skips a mapping whose transformed value is `null` before merging. -/
theorem mergeNestedData_null_behaviour
    (flds : List (String × JValue)) (p q : String)
    (h1 : (jsSplitChar p '.').length = 1)
    (h2 : 2 ≤ (jsSplitChar q '.').length) :
    mergeNestedData (.vobj flds) .vnull p =
      .ok (.vobj (JValue.objSet flds ((jsSplitChar p '.').headD "") .vnull)) ∧
    mergeNestedData (.vobj flds) .vnull q = .error () ∧
    (∀ (tf : String → FieldMapping → JValue) (m : FieldMapping)
        (rest : List FieldMapping) (row : Row) (acc : JValue),
      m.contentstackField ≠ "skip" →
      cellTruthy (lookupRow row m.csvColumn) = true →
      transformNestedValue tf ((lookupRow row m.csvColumn).getD "")
          m.contentstackField m = .vnull →
      buildEntryData tf (m :: rest) row acc = buildEntryData tf rest row acc) := by
  have hq1 : ¬((jsSplitChar q '.').length = 1) := by omega
  refine ⟨?_, ?_, ?_⟩
  · simp [mergeNestedData, JValue.spreadFields, h1]
  · simp [mergeNestedData, JValue.spreadFields, hq1, JValue.truthyProp,
      JValue.getProp, Bind.bind, Except.bind]
  · intro tf m rest row acc hskip hcell htv
    have hcell' : ¬(cellTruthy (lookupRow row m.csvColumn) = false) := by
      simp [hcell]
    simp [buildEntryData, hskip, hcell, hcell', htv, isVNull]

/-- C5 amended witness: at path `"age"` with `{}` the stored field is the
explicit `null`; at `"a.b"` the merge throws; a null-transforming mapping
is skipped by the build loop. -/
theorem mergeNestedData_null_behaviour_witness :
    (jsSplitChar "age" '.').length = 1 ∧
    2 ≤ (jsSplitChar "a.b" '.').length ∧
    (mergeNestedData (.vobj []) .vnull "age" =
        .ok (.vobj (JValue.objSet [] ((jsSplitChar "age" '.').headD "") .vnull)) ∧
      mergeNestedData (.vobj []) .vnull "a.b" = .error () ∧
      (∀ (tf : String → FieldMapping → JValue) (m : FieldMapping)
          (rest : List FieldMapping) (row : Row) (acc : JValue),
        m.contentstackField ≠ "skip" →
        cellTruthy (lookupRow row m.csvColumn) = true →
        transformNestedValue tf ((lookupRow row m.csvColumn).getD "")
            m.contentstackField m = .vnull →
        buildEntryData tf (m :: rest) row acc = buildEntryData tf rest row acc)) :=
  ⟨by decide, by decide,
    mergeNestedData_null_behaviour [] "age" "a.b" (by decide) (by decide)⟩

/-- C3 counterexample: the hook's `transformValue` has no `reference`
case — a reference-typed mapping's raw cell `"abc"` passes through as the
plain string, not as the single-element list `[{uid: "abc"}]` the claim
states. -/
theorem transformValueHook_reference_passthrough_counterexample :
    transformValueHook (fun _ => none) (fun _ => none) "abc"
      { csvColumn := "r", contentstackField := "ref",
        fieldType := "reference", isRequired := false } = .vstr "abc" ∧
    JValue.vstr "abc" ≠ .varr [.vobj [("uid", .vstr "abc")]] := by
  refine ⟨rfl, ?_⟩
  intro h
  simp at h

/-- C3 amended: the two mapping-based `transformValue` implementations
(the hook's in `useImportOperations.tsx` and the one in
`ImportProgress.tsx`) treat `reference` like plain text and return the
raw string unchanged; only the legacy fieldType-based variant wraps a
non-blank raw cell as the single-element list `[{uid: raw}]`. -/
theorem reference_transform_variants
    (numO : String → Option Rat) (dateO : String → Option String)
    (pfO : String → JValue) (v : String) (m : FieldMapping)
    (href' : m.fieldType = "reference")
    (hnb : ¬(v = "" ∨ jsTrim v = "")) :
    transformValueHook numO dateO v m = .vstr v ∧
    transformValueProgress numO dateO v m = .vstr v ∧
    transformValueLegacy pfO dateO v "reference" =
      some (.varr [.vobj [("uid", .vstr v)]]) := by
  refine ⟨?_, ?_, ?_⟩
  · simp [transformValueHook, href']
  · simp [transformValueProgress, href']
  · simp [transformValueLegacy, hnb]

/-- C3 amended witness at the cell `"entry42"`. -/
theorem reference_transform_variants_witness :
    ({ csvColumn := "r", contentstackField := "ref",
        fieldType := "reference", isRequired := false } : FieldMapping).fieldType
        = "reference" ∧
    ¬("entry42" = "" ∨ jsTrim "entry42" = "") ∧
    (transformValueHook (fun _ => none) (fun _ => none) "entry42"
        { csvColumn := "r", contentstackField := "ref",
          fieldType := "reference", isRequired := false } = .vstr "entry42" ∧
      transformValueProgress (fun _ => none) (fun _ => none) "entry42"
        { csvColumn := "r", contentstackField := "ref",
          fieldType := "reference", isRequired := false } = .vstr "entry42" ∧
      transformValueLegacy (fun _ => .vnull) (fun _ => none) "entry42"
          "reference" = some (.varr [.vobj [("uid", .vstr "entry42")]])) :=
  ⟨rfl, by decide,
    reference_transform_variants (fun _ => none) (fun _ => none)
      (fun _ => .vnull) "entry42"
      { csvColumn := "r", contentstackField := "ref",
        fieldType := "reference", isRequired := false } rfl (by decide)⟩

theorem findLoop_exact_uid (hh : String) (cv : List String)
    (f : FlattenedField) (post : List FlattenedField) (hf : f.uid = hh) :
    ∀ (pre : List FlattenedField),
      (∀ g ∈ pre, g.uid ≠ hh ∧ g.display_name ≠ hh ∧ g.fieldPath ≠ hh) →
      ∀ best bc, findLoop hh cv (pre ++ f :: post) best bc = ⟨some f, 100⟩ := by
  intro pre
  induction pre with
  | nil =>
    intro _ best bc
    simp [findLoop, hf]
  | cons g rest ih =>
    intro hpre best bc
    obtain ⟨h1, h2, h3⟩ := hpre g (List.mem_cons_self g rest)
    have hrest := fun g' hg' => hpre g' (List.mem_cons_of_mem g hg')
    simp only [List.cons_append, findLoop, h1, h2, h3, if_false]
    split
    · exact ih hrest _ _
    · exact ih hrest _ _

/-- C4: when a field's `uid` equals the CSV header exactly and no earlier
field in the list matches the header exactly by `uid`, `display_name` or
`fieldPath`, `findMatchingField` returns that field with confidence 100 —
earlier fields that match only heuristically never win, because heuristic
candidates are merely tracked while an exact `uid` hit returns
immediately. -/
theorem findMatchingField_exact_uid_beats_earlier_heuristic
    (hh : String) (pre post : List FlattenedField) (f : FlattenedField)
    (hf : f.uid = hh)
    (hpre : ∀ g ∈ pre, g.uid ≠ hh ∧ g.display_name ≠ hh ∧ g.fieldPath ≠ hh) :
    findMatchingField hh (pre ++ f :: post) = ⟨some f, 100⟩ :=
  findLoop_exact_uid hh (getTextVariations hh) f post hf pre hpre none 0

/-- C4 witness: a field whose normalized variations match
`"Email Address"` heuristically (confidence 80 when alone) precedes a
field whose `uid` is literally `"Email Address"`; the exact match wins
with confidence 100. -/
theorem findMatchingField_exact_uid_beats_earlier_heuristic_witness :
    ({ uid := "email_address", display_name := "Customer Email",
        data_type := "text", mandatory := false, reference_to := none,
        fieldPath := "email_address", parentField := none, blockType := none,
        selectOptions := none } : FlattenedField).uid ≠ "Email Address" ∧
    findMatchingField "Email Address"
      [{ uid := "email_address", display_name := "Customer Email",
          data_type := "text", mandatory := false, reference_to := none,
          fieldPath := "email_address", parentField := none, blockType := none,
          selectOptions := none }] = ⟨some
        { uid := "email_address", display_name := "Customer Email",
          data_type := "text", mandatory := false, reference_to := none,
          fieldPath := "email_address", parentField := none, blockType := none,
          selectOptions := none }, 80⟩ ∧
    findMatchingField "Email Address"
      [{ uid := "email_address", display_name := "Customer Email",
          data_type := "text", mandatory := false, reference_to := none,
          fieldPath := "email_address", parentField := none, blockType := none,
          selectOptions := none },
        { uid := "Email Address", display_name := "Email Address Field",
          data_type := "text", mandatory := false, reference_to := none,
          fieldPath := "Email Address", parentField := none, blockType := none,
          selectOptions := none }] = ⟨some
        { uid := "Email Address", display_name := "Email Address Field",
          data_type := "text", mandatory := false, reference_to := none,
          fieldPath := "Email Address", parentField := none, blockType := none,
          selectOptions := none }, 100⟩ :=
  ⟨by decide, by decide,
    findMatchingField_exact_uid_beats_earlier_heuristic "Email Address"
      [{ uid := "email_address", display_name := "Customer Email",
          data_type := "text", mandatory := false, reference_to := none,
          fieldPath := "email_address", parentField := none, blockType := none,
          selectOptions := none }] []
      { uid := "Email Address", display_name := "Email Address Field",
        data_type := "text", mandatory := false, reference_to := none,
        fieldPath := "Email Address", parentField := none, blockType := none,
        selectOptions := none } rfl (by decide)⟩

theorem beq_imp_ciEq {a v : String} (h : (a == v) = true) :
    ciEq a v = true := by
  have : a = v := eq_of_beq h
  subst this
  simp [ciEq]

/-- C8 counterexample: with the single declared option
`{value: "red", label: "Red"}`, the raw value `"re"` equals no option's
value or label case-insensitively, yet the hook's `transformValue`
returns `"red"` via its partial (substring) fallback instead of the
`null` the claim requires. -/
theorem transformValueHook_select_partial_match_counterexample :
    (ciEq "red" "re" = false ∧ ciEq "Red" "re" = false) ∧
    transformValueHook (fun _ => none) (fun _ => none) "re"
      { csvColumn := "c", contentstackField := "color",
        fieldType := "select", isRequired := false,
        selectOptions := some [{ value := "red", text := "Red" }] } =
      .vstr "red" ∧
    JValue.vstr "red" ≠ .vnull := by
  refine ⟨⟨rfl, rfl⟩, rfl, ?_⟩
  intro h
  simp at h

/-- C8 amended: for a select mapping with non-empty options, in the
hook's `transformValue` a case-insensitive value/label match returns a
matching option's declared value, and every non-null result is some
declared option's value (no option is ever invented); but the cascade
also accepts partial (substring) matches, so `null` is returned only
when no exact, case-insensitive, or partial match exists.  The
`ImportProgress.tsx` variant behaves exactly as the claim states:
a case-insensitive match returns that option's value, anything else
returns `null`. -/
theorem select_transform_variants
    (numO : String → Option Rat) (dateO : String → Option String)
    (v : String) (m : FieldMapping) (opts : List SelectOption)
    (hsel : m.fieldType = "select") (hopts : m.selectOptions = some opts)
    (hne : opts ≠ []) :
    ((∃ o ∈ opts, ciEq o.value v = true ∨ ciEq o.text v = true) →
      ∃ o ∈ opts, (ciEq o.value v = true ∨ ciEq o.text v = true) ∧
        transformValueHook numO dateO v m = .vstr o.value) ∧
    (transformValueHook numO dateO v m = .vnull ∨
      ∃ o ∈ opts, transformValueHook numO dateO v m = .vstr o.value) ∧
    ((∀ o ∈ opts, (o.value == v || o.text == v) = false ∧
        (ciEq o.value v || ciEq o.text v) = false ∧
        selectPartialPred o v = false) →
      transformValueHook numO dateO v m = .vnull) ∧
    ((∃ o ∈ opts, ciEq o.value v = true ∨ ciEq o.text v = true) →
      ∃ o ∈ opts, (ciEq o.value v = true ∨ ciEq o.text v = true) ∧
        transformValueProgress numO dateO v m = .vstr o.value) ∧
    ((∀ o ∈ opts, (ciEq o.value v || ciEq o.text v) = false) →
      transformValueProgress numO dateO v m = .vnull) := by
  have hlen : 0 < opts.length := List.length_pos.mpr hne
  have hredHook : transformValueHook numO dateO v m = selectMatchHook opts v := by
    simp [transformValueHook, hsel, hopts, hlen]
  have hciProp : ∀ (o : SelectOption),
      (ciEq o.value v || ciEq o.text v) = true ↔
      (ciEq o.value v = true ∨ ciEq o.text v = true) := by
    intro o
    simp
  refine ⟨?_, ?_, ?_, ?_, ?_⟩
  · -- hook: a case-insensitive hit returns a case-insensitively
    -- matching option's declared value
    rintro ⟨o, ho, hci⟩
    rw [hredHook]
    unfold selectMatchHook
    rcases hex : opts.find? (fun o => o.value == v || o.text == v) with _ | oe
    · rcases hcif : opts.find? (fun o => ciEq o.value v || ciEq o.text v)
          with _ | oc
      · exfalso
        have := List.find?_eq_none.mp hcif o ho
        simp only [hciProp] at this
        exact this hci
      · refine ⟨oc, List.mem_of_find?_eq_some hcif, ?_, by simp [hex, hcif]⟩
        have := List.find?_some hcif
        simpa using this
    · refine ⟨oe, List.mem_of_find?_eq_some hex, ?_, by simp [hex]⟩
      have := List.find?_some hex
      rcases Bool.or_eq_true_iff.mp this with h1 | h1
      · exact Or.inl (beq_imp_ciEq h1)
      · exact Or.inr (beq_imp_ciEq h1)
  · -- hook: any non-null result is a declared option's value
    rw [hredHook]
    unfold selectMatchHook
    rcases hex : opts.find? (fun o => o.value == v || o.text == v) with _ | oe
    · rcases hcif : opts.find? (fun o => ciEq o.value v || ciEq o.text v)
          with _ | oc
      · rcases hpf : opts.find? (fun o => selectPartialPred o v) with _ | op
        · left; simp [hex, hcif, hpf]
        · right
          exact ⟨op, List.mem_of_find?_eq_some hpf, by simp [hex, hcif, hpf]⟩
      · right; exact ⟨oc, List.mem_of_find?_eq_some hcif, by simp [hex, hcif]⟩
    · right; exact ⟨oe, List.mem_of_find?_eq_some hex, by simp [hex]⟩
  · -- hook: no exact, case-insensitive or partial match yields null
    intro hall
    rw [hredHook]
    unfold selectMatchHook
    have hex : opts.find? (fun o => o.value == v || o.text == v) = none :=
      List.find?_eq_none.mpr fun o ho => by simp [(hall o ho).1]
    have hcif : opts.find? (fun o => ciEq o.value v || ciEq o.text v) = none :=
      List.find?_eq_none.mpr fun o ho => by simp [(hall o ho).2.1]
    have hpf : opts.find? (fun o => selectPartialPred o v) = none :=
      List.find?_eq_none.mpr fun o ho => by simp [(hall o ho).2.2]
    simp [hex, hcif, hpf]
  · -- the ImportProgress variant: a case-insensitive hit returns a
    -- matching option's declared value
    rintro ⟨o, ho, hci⟩
    rcases hcif : opts.find? (fun o => ciEq o.value v || ciEq o.text v)
        with _ | oc
    · exfalso
      have := List.find?_eq_none.mp hcif o ho
      simp only [hciProp] at this
      exact this hci
    · refine ⟨oc, List.mem_of_find?_eq_some hcif, ?_, ?_⟩
      · have := List.find?_some hcif
        simpa using this
      · simp [transformValueProgress, hsel, hopts, hlen, hcif]
  · -- the ImportProgress variant: no case-insensitive match yields null
    intro hall
    have hcif : opts.find? (fun o => ciEq o.value v || ciEq o.text v) = none :=
      List.find?_eq_none.mpr fun o ho => by simp [hall o ho]
    simp [transformValueProgress, hsel, hopts, hlen, hcif]

/-- C8 amended witness with options `red`/`blue` and the raw cell
`"RED"`. -/
theorem select_transform_variants_witness :
    ({ csvColumn := "c", contentstackField := "color",
        fieldType := "select", isRequired := false,
        selectOptions := some [{ value := "red", text := "Red" },
          { value := "blue", text := "Blue" }] } : FieldMapping).fieldType
        = "select" ∧
    (∃ o ∈ [({ value := "red", text := "Red" } : SelectOption),
        { value := "blue", text := "Blue" }],
      ciEq o.value "RED" = true ∨ ciEq o.text "RED" = true) ∧
    (∃ o ∈ [({ value := "red", text := "Red" } : SelectOption),
        { value := "blue", text := "Blue" }],
      (ciEq o.value "RED" = true ∨ ciEq o.text "RED" = true) ∧
      transformValueHook (fun _ => none) (fun _ => none) "RED"
        { csvColumn := "c", contentstackField := "color",
          fieldType := "select", isRequired := false,
          selectOptions := some [{ value := "red", text := "Red" },
            { value := "blue", text := "Blue" }] } = .vstr o.value) :=
  ⟨rfl, ⟨{ value := "red", text := "Red" }, by decide, Or.inl (by decide)⟩,
    (select_transform_variants (fun _ => none) (fun _ => none) "RED"
      { csvColumn := "c", contentstackField := "color",
        fieldType := "select", isRequired := false,
        selectOptions := some [{ value := "red", text := "Red" },
          { value := "blue", text := "Blue" }] }
      [{ value := "red", text := "Red" }, { value := "blue", text := "Blue" }]
      rfl rfl (by decide)).1
      ⟨{ value := "red", text := "Red" }, by decide, Or.inl (by decide)⟩⟩

/-- The tagged record `transformNestedValue` produces for a direct
modular-block path (`{blockType, fieldName, value}`). -/
def blockLeafRecord (blockUid fieldName : String) (v : JValue) : JValue :=
  .vobj [("blockType", .vstr blockUid), ("fieldName", .vstr fieldName),
    ("value", v)]

/-- C6 counterexample: in a document whose container already holds a
`cta` block element, two successive merges into the `hero` block of
`sections` leave the container with two array elements, not the single
element the claim asserts for every entry document. -/
theorem merge_block_accumulation_counterexample :
    mergeNestedData (.vobj [("sections", .varr [.vobj [("cta", .vobj [])]])])
        (blockLeafRecord "hero" "title" (.vstr "T")) "sections.hero.title" =
      .ok (.vobj [("sections", .varr [.vobj [("cta", .vobj [])],
        .vobj [("hero", .vobj [("title", .vstr "T")])]])]) ∧
    mergeNestedData
        (.vobj [("sections", .varr [.vobj [("cta", .vobj [])],
          .vobj [("hero", .vobj [("title", .vstr "T")])]])])
        (blockLeafRecord "hero" "subtitle" (.vstr "S"))
        "sections.hero.subtitle" =
      .ok (.vobj [("sections", .varr [.vobj [("cta", .vobj [])],
        .vobj [("hero", .vobj [("title", .vstr "T"),
          ("subtitle", .vstr "S")])]])]) ∧
    ([JValue.vobj [("cta", .vobj [])],
      JValue.vobj [("hero", .vobj [("title", .vstr "T"),
        ("subtitle", .vstr "S")])]].length = 2 ∧ 2 ≠ 1) :=
  ⟨rfl, rfl, rfl, by omega⟩

/-- C6 amended: in any entry document whose container field is still
absent (or falsy), two merges at 3-segment block paths sharing the
container and blockUid but with different leaf names accumulate into one
array element holding both leaves, and a further merge with a different
blockUid appends a second, independent element. -/
theorem merge_block_accumulation
    (flds : List (String × JValue)) (c b b2 f1 f2 f3 : String)
    (v1 v2 v3 : JValue) (p1 p2 p3 : String)
    (hp1 : jsSplitChar p1 '.' = [c, b, f1])
    (hp2 : jsSplitChar p2 '.' = [c, b, f2])
    (hp3 : jsSplitChar p3 '.' = [c, b2, f3])
    (hb : b ≠ "") (hb2 : b2 ≠ "") (hbb : b ≠ b2) (hf : f1 ≠ f2)
    (hc : (JValue.objGet flds c).truthy = false) :
    mergeNestedData (.vobj flds) (blockLeafRecord b f1 v1) p1 =
      .ok (.vobj (JValue.objSet flds c
        (.varr [.vobj [(b, .vobj [(f1, v1)])]]))) ∧
    mergeNestedData
        (.vobj (JValue.objSet flds c (.varr [.vobj [(b, .vobj [(f1, v1)])]])))
        (blockLeafRecord b f2 v2) p2 =
      .ok (.vobj (JValue.objSet flds c
        (.varr [.vobj [(b, .vobj [(f1, v1), (f2, v2)])]]))) ∧
    mergeNestedData
        (.vobj (JValue.objSet flds c
          (.varr [.vobj [(b, .vobj [(f1, v1), (f2, v2)])]])))
        (blockLeafRecord b2 f3 v3) p3 =
      .ok (.vobj (JValue.objSet flds c
        (.varr [.vobj [(b, .vobj [(f1, v1), (f2, v2)])],
          .vobj [(b2, .vobj [(f3, v3)])]]))) := by
  have hA : asBlockArray (JValue.objGet flds c) = Except.ok [] := by
    unfold asBlockArray
    rw [hc]
    simp
  refine ⟨?_, ?_, ?_⟩
  · simp [mergeNestedData, blockLeafRecord, hp1, JValue.spreadFields,
      JValue.truthyProp, JValue.getProp, objGet_cons, objGet_nil,
      JValue.truthy, hb, hA, findFirstKeyIdx, Bind.bind, Except.bind,
      Pure.pure, Except.pure, JValue.keyString]
  · simp [mergeNestedData, blockLeafRecord, hp2, JValue.spreadFields,
      JValue.truthyProp, JValue.getProp, objGet_cons, objGet_nil, hb,
      asBlockArray, findFirstKeyIdx, JValue.firstKey, setBlockField,
      objGet_objSet_self, objSet_objSet_same, JValue.objSet, hf, Bind.bind,
      Except.bind, Pure.pure, Except.pure, JValue.keyString, JValue.truthy]
  · simp [mergeNestedData, blockLeafRecord, hp3, JValue.spreadFields,
      JValue.truthyProp, JValue.getProp, objGet_cons, objGet_nil, hb2, hbb,
      asBlockArray, findFirstKeyIdx, JValue.firstKey,
      setBlockField, objGet_objSet_self, objSet_objSet_same, JValue.objSet,
      Bind.bind, Except.bind, Pure.pure, Except.pure, JValue.keyString,
      JValue.truthy]

/-- C6 amended witness: starting from the empty document, `hero.title`
then `hero.subtitle` accumulate into one `sections` element, and a
`cta.text` merge appends a second. -/
theorem merge_block_accumulation_witness :
    jsSplitChar "sections.hero.title" '.' = ["sections", "hero", "title"] ∧
    (JValue.objGet [] "sections").truthy = false ∧
    (mergeNestedData (.vobj []) (blockLeafRecord "hero" "title" (.vstr "T"))
        "sections.hero.title" =
      .ok (.vobj (JValue.objSet [] "sections"
        (.varr [.vobj [("hero", .vobj [("title", .vstr "T")])]]))) ∧
    mergeNestedData
        (.vobj (JValue.objSet [] "sections"
          (.varr [.vobj [("hero", .vobj [("title", .vstr "T")])]])))
        (blockLeafRecord "hero" "subtitle" (.vstr "S"))
        "sections.hero.subtitle" =
      .ok (.vobj (JValue.objSet [] "sections"
        (.varr [.vobj [("hero", .vobj [("title", .vstr "T"),
          ("subtitle", .vstr "S")])]]))) ∧
    mergeNestedData
        (.vobj (JValue.objSet [] "sections"
          (.varr [.vobj [("hero", .vobj [("title", .vstr "T"),
            ("subtitle", .vstr "S")])]])))
        (blockLeafRecord "cta" "text" (.vstr "C")) "sections.cta.text" =
      .ok (.vobj (JValue.objSet [] "sections"
        (.varr [.vobj [("hero", .vobj [("title", .vstr "T"),
            ("subtitle", .vstr "S")])],
          .vobj [("cta", .vobj [("text", .vstr "C")])]])))) :=
  ⟨rfl, rfl,
    merge_block_accumulation [] "sections" "hero" "cta" "title" "subtitle"
      "text" (.vstr "T") (.vstr "S") (.vstr "C") "sections.hero.title"
      "sections.hero.subtitle" "sections.cta.text" rfl rfl rfl
      (by decide) (by decide) (by decide) (by decide) rfl⟩

theorem set_concat_length {α : Type _} (l : List α) (x y : α) :
    (l ++ [x]).set l.length y = l ++ [y] := by
  induction l with
  | nil => rfl
  | cons a t ih => simp [List.set, ih]

/-- C1 counterexample: merging a second leaf into an existing block
instance writes through the array element shared with the input
document.  Before the call the document at address 0 reads as
`{sections: [{hero: {title: "a"}}]}`; after the call the same input
address reads back with the extra `subtitle` field — the input's
reachable structure was mutated in place. -/
theorem mergeNestedDataH_mutates_shared_block_counterexample :
    mergeNestedDataH
      [ .obj [("sections", .href 1)], .arr [.href 2],
        .obj [("hero", .href 3)], .obj [("title", .hstr "a")],
        .obj [("blockType", .hstr "hero"), ("fieldName", .hstr "subtitle"),
          ("value", .hstr "b")] ]
      (.href 0) (.href 4) "sections.hero.subtitle" =
      .ok ([ .obj [("sections", .href 1)], .arr [.href 2],
        .obj [("hero", .href 3)],
        .obj [("title", .hstr "a"), ("subtitle", .hstr "b")],
        .obj [("blockType", .hstr "hero"), ("fieldName", .hstr "subtitle"),
          ("value", .hstr "b")],
        .obj [("sections", .href 1)] ], .href 5) ∧
    readVal
      [ .obj [("sections", .href 1)], .arr [.href 2],
        .obj [("hero", .href 3)], .obj [("title", .hstr "a")],
        .obj [("blockType", .hstr "hero"), ("fieldName", .hstr "subtitle"),
          ("value", .hstr "b")] ] 5 (.href 0) =
      .vobj [("sections",
        .varr [.vobj [("hero", .vobj [("title", .vstr "a")])]])] ∧
    readVal
      [ .obj [("sections", .href 1)], .arr [.href 2],
        .obj [("hero", .href 3)],
        .obj [("title", .hstr "a"), ("subtitle", .hstr "b")],
        .obj [("blockType", .hstr "hero"), ("fieldName", .hstr "subtitle"),
          ("value", .hstr "b")],
        .obj [("sections", .href 1)] ] 5 (.href 0) =
      .vobj [("sections",
        .varr [.vobj [("hero", .vobj [("title", .vstr "a"),
          ("subtitle", .vstr "b")])]])] ∧
    JValue.vobj [("sections",
        .varr [.vobj [("hero", .vobj [("title", .vstr "a"),
          ("subtitle", .vstr "b")])]])] ≠
      .vobj [("sections",
        .varr [.vobj [("hero", .vobj [("title", .vstr "a")])]])] := by
  refine ⟨rfl, rfl, rfl, ?_⟩
  intro h
  simp at h

/-- C1 amended: `mergeNestedData` returns a fresh top-level object (the
shallow copy) and never reassigns the input's own addresses when the
fieldPath has a single segment: the merge appends exactly one fresh
object and every pre-existing address is unchanged.  For deeper paths the
block and global-field branches write through containers the copy shares
with the input, so nested objects reachable from the input may be mutated
in place (see the counterexample). -/
theorem mergeNestedDataH_single_segment_frame (st : Store) (d nd : HVal)
    (p : String) (h1 : (jsSplitChar p '.').length = 1) :
    ∃ fields',
      mergeNestedDataH st d nd p =
        .ok (st ++ [.obj fields'], .href st.length) ∧
      ∀ a, a < st.length → (st ++ [.obj fields'])[a]? = st[a]? := by
  refine ⟨hSetKey (hSpreadFields st d) ((jsSplitChar p '.').headD "") nd,
    ?_, ?_⟩
  · simp [mergeNestedDataH, h1, allocH, hSetProp,
      List.getElem?_concat_length, set_concat_length, Bind.bind, Except.bind]
  · intro a ha
    simp [List.getElem?_append, ha]

/-- C1 amended witness: a single-segment merge over a one-object store
leaves address 0 untouched and appends the fresh result object. -/
theorem mergeNestedDataH_single_segment_frame_witness :
    (jsSplitChar "age" '.').length = 1 ∧
    ∃ fields',
      mergeNestedDataH [.obj [("x", .hstr "v")]] (.href 0) (.hstr "y")
          "age" =
        .ok ([.obj [("x", .hstr "v")]] ++ [.obj fields'],
          .href [HObj.obj [("x", .hstr "v")]].length) ∧
      ∀ a, a < [HObj.obj [("x", .hstr "v")]].length →
        ([.obj [("x", .hstr "v")]] ++ [.obj fields'])[a]? =
          [HObj.obj [("x", .hstr "v")]][a]? :=
  ⟨by decide,
    mergeNestedDataH_single_segment_frame [.obj [("x", .hstr "v")]]
      (.href 0) (.hstr "y") "age" (by decide)⟩

theorem buildEntryData_required_empty_error
    (tf : String → FieldMapping → JValue) :
    ∀ (mappings : List FieldMapping) (row : Row) (acc : JValue)
      (m : FieldMapping), m ∈ mappings → m.contentstackField ≠ "skip" →
      m.isRequired = true → cellTruthy (lookupRow row m.csvColumn) = false →
      ∃ e, buildEntryData tf mappings row acc = .error e ∧
        (e = .thrown ∨ ∃ m', m' ∈ mappings ∧ m'.contentstackField ≠ "skip" ∧
          m'.isRequired = true ∧
          cellTruthy (lookupRow row m'.csvColumn) = false ∧
          e = .missingRequired m'.contentstackField) := by
  intro mappings
  induction mappings with
  | nil =>
    intro row acc m hm
    exact absurd hm (List.not_mem_nil m)
  | cons m0 rest ih =>
    intro row acc m hm hskip hreq hempty
    by_cases h0 : m0.contentstackField = "skip"
    · have hmr : m ∈ rest := by
        rcases List.mem_cons.mp hm with h | h
        · exact absurd (h ▸ h0) hskip
        · exact h
      obtain ⟨e, he, hcase⟩ := ih row acc m hmr hskip hreq hempty
      refine ⟨e, ?_, ?_⟩
      · simpa [buildEntryData, h0] using he
      · rcases hcase with h | ⟨m', hm', h1, h2, h3, h4⟩
        · exact Or.inl h
        · exact Or.inr ⟨m', List.mem_cons_of_mem m0 hm', h1, h2, h3, h4⟩
    · by_cases hfail : ¬ cellTruthy (lookupRow row m0.csvColumn) = true ∧
          m0.isRequired = true
      · refine ⟨.missingRequired m0.contentstackField, ?_, Or.inr
          ⟨m0, List.mem_cons_self m0 rest, h0, hfail.2, ?_, rfl⟩⟩
        · simp [buildEntryData, h0, hfail.1, hfail.2]
        · simpa using hfail.1
      · have hmr : m ∈ rest := by
          rcases List.mem_cons.mp hm with h | h
          · subst h
            exact absurd ⟨by simp [hempty], hreq⟩ hfail
          · exact h
        by_cases hcell : cellTruthy (lookupRow row m0.csvColumn) = true
        · by_cases hnull :
              isVNull (transformNestedValue tf
                ((lookupRow row m0.csvColumn).getD "")
                m0.contentstackField m0) = true
          · obtain ⟨e, he, hcase⟩ := ih row acc m hmr hskip hreq hempty
            refine ⟨e, ?_, ?_⟩
            · simpa [buildEntryData, h0, hcell, hnull] using he
            · rcases hcase with h | ⟨m', hm', h1, h2, h3, h4⟩
              · exact Or.inl h
              · exact Or.inr ⟨m', List.mem_cons_of_mem m0 hm', h1, h2, h3, h4⟩
          · rcases hmerge : mergeStep tf m0 row acc with err | acc'
            · refine ⟨.thrown, ?_, Or.inl rfl⟩
              simp [buildEntryData, h0, hcell, hnull, hmerge]
            · obtain ⟨e, he, hcase⟩ := ih row acc' m hmr hskip hreq hempty
              refine ⟨e, ?_, ?_⟩
              · simpa [buildEntryData, h0, hcell, hnull, hmerge] using he
              · rcases hcase with h | ⟨m', hm', h1, h2, h3, h4⟩
                · exact Or.inl h
                · exact Or.inr
                    ⟨m', List.mem_cons_of_mem m0 hm', h1, h2, h3, h4⟩
        · have hnr : m0.isRequired = false := by
            by_cases hr : m0.isRequired = true
            · exact absurd ⟨by simp [hcell], hr⟩ hfail
            · simpa using hr
          obtain ⟨e, he, hcase⟩ := ih row acc m hmr hskip hreq hempty
          refine ⟨e, ?_, ?_⟩
          · simpa [buildEntryData, h0, hcell, hnr] using he
          · rcases hcase with h | ⟨m', hm', h1, h2, h3, h4⟩
            · exact Or.inl h
            · exact Or.inr ⟨m', List.mem_cons_of_mem m0 hm', h1, h2, h3, h4⟩

/-- C9: when some non-skip mapping is required and its cell in the row is
empty, the per-row handler returns a failure result and issues no
transport call at all (in particular no create, update, or publish); when
no earlier mapping throws inside the merge, the error names a required
field whose cell is empty; and the batch loop still yields one result per
row, each row processed independently. -/
theorem required_missing_aborts_row_without_transport
    (oracle : EntryOracle) (shouldPublish : Bool)
    (tf : String → FieldMapping → JValue) (mappings : List FieldMapping)
    (rows : List Row) (i : Nat) (m : FieldMapping)
    (_hi : i < rows.length) (hm : m ∈ mappings)
    (hskip : m.contentstackField ≠ "skip") (hreq : m.isRequired = true)
    (hempty : cellTruthy (lookupRow (rows.getD i []) m.csvColumn) = false) :
    (handleCreateOrUpdateEntry oracle shouldPublish tf mappings
      (rows.getD i []) i).1.success = false ∧
    (handleCreateOrUpdateEntry oracle shouldPublish tf mappings
      (rows.getD i []) i).2 = [] ∧
    (buildEntryData tf mappings (rows.getD i []) (.vobj []) ≠
        .error .thrown →
      ∃ m', m' ∈ mappings ∧ m'.contentstackField ≠ "skip" ∧
        m'.isRequired = true ∧
        cellTruthy (lookupRow (rows.getD i []) m'.csvColumn) = false ∧
        (handleCreateOrUpdateEntry oracle shouldPublish tf mappings
          (rows.getD i []) i).1.error =
          some ("Missing required field: " ++ m'.contentstackField)) ∧
    (startImportResults oracle shouldPublish tf mappings rows).length =
      rows.length ∧
    (∀ j, j < rows.length →
      (startImportResults oracle shouldPublish tf mappings rows)[j]? =
        some (handleCreateOrUpdateEntry oracle shouldPublish tf mappings
          (rows.getD j []) j).1) := by
  obtain ⟨e, he, hcase⟩ := buildEntryData_required_empty_error tf mappings
    (rows.getD i []) (.vobj []) m hm hskip hreq hempty
  have he' : buildEntryData tf mappings (rows[i]?.getD []) (.vobj []) =
      .error e := by
    simpa [List.getD] using he
  have hlen : (startImportResults oracle shouldPublish tf mappings
      rows).length = rows.length := by
    simp [startImportResults]
  have hidx : ∀ j, j < rows.length →
      (startImportResults oracle shouldPublish tf mappings rows)[j]? =
        some (handleCreateOrUpdateEntry oracle shouldPublish tf mappings
          (rows.getD j []) j).1 := by
    intro j hj
    simp [startImportResults, List.getElem?_map, List.getElem?_range hj]
  rcases e with f | _
  · refine ⟨?_, ?_, ?_, hlen, hidx⟩
    · simp [handleCreateOrUpdateEntry, he']
    · simp [handleCreateOrUpdateEntry, he']
    · intro _
      rcases hcase with h | ⟨m', hm', h1, h2, h3, h4⟩
      · exact absurd h (by simp)
      · refine ⟨m', hm', h1, h2, h3, ?_⟩
        have hf : f = m'.contentstackField := by
          simpa using h4
        simp [handleCreateOrUpdateEntry, he', hf]
  · refine ⟨?_, ?_, ?_, hlen, hidx⟩
    · simp [handleCreateOrUpdateEntry, he']
    · simp [handleCreateOrUpdateEntry, he']
    · intro hnt
      exact absurd he hnt

/-- C9 witness: a required `title` mapping whose column is missing from
the row aborts the single row with the missing-required error, issues no
transport call, and the one-row batch still yields one result. -/
theorem required_missing_aborts_row_without_transport_witness :
    (0 : Nat) < ([[("a", "x")]] : List Row).length ∧
    ({ csvColumn := "title", contentstackField := "title",
        fieldType := "text", isRequired := true } : FieldMapping) ∈
      [({ csvColumn := "title", contentstackField := "title",
          fieldType := "text", isRequired := true } : FieldMapping)] ∧
    cellTruthy (lookupRow (([[("a", "x")]] : List Row).getD 0 [])
      "title") = false ∧
    ((handleCreateOrUpdateEntry
        ⟨fun _ => none, fun _ => none, fun _ _ => none, fun _ => false⟩
        false (fun v _ => .vstr v)
        [{ csvColumn := "title", contentstackField := "title",
           fieldType := "text", isRequired := true }]
        (([[("a", "x")]] : List Row).getD 0 []) 0).1.success = false ∧
      (handleCreateOrUpdateEntry
        ⟨fun _ => none, fun _ => none, fun _ _ => none, fun _ => false⟩
        false (fun v _ => .vstr v)
        [{ csvColumn := "title", contentstackField := "title",
           fieldType := "text", isRequired := true }]
        (([[("a", "x")]] : List Row).getD 0 []) 0).2 = [] ∧
      (buildEntryData (fun v _ => .vstr v)
          [{ csvColumn := "title", contentstackField := "title",
             fieldType := "text", isRequired := true }]
          (([[("a", "x")]] : List Row).getD 0 []) (.vobj []) ≠
          .error .thrown →
        ∃ m', m' ∈ [({ csvColumn := "title", contentstackField := "title",
                       fieldType := "text", isRequired := true } : FieldMapping)] ∧
          m'.contentstackField ≠ "skip" ∧ m'.isRequired = true ∧
          cellTruthy (lookupRow (([[("a", "x")]] : List Row).getD 0 [])
            m'.csvColumn) = false ∧
          (handleCreateOrUpdateEntry
            ⟨fun _ => none, fun _ => none, fun _ _ => none, fun _ => false⟩
            false (fun v _ => .vstr v)
            [{ csvColumn := "title", contentstackField := "title",
               fieldType := "text", isRequired := true }]
            (([[("a", "x")]] : List Row).getD 0 []) 0).1.error =
            some ("Missing required field: " ++ m'.contentstackField)) ∧
      (startImportResults
        ⟨fun _ => none, fun _ => none, fun _ _ => none, fun _ => false⟩
        false (fun v _ => .vstr v)
        [{ csvColumn := "title", contentstackField := "title",
           fieldType := "text", isRequired := true }]
        [[("a", "x")]]).length = ([[("a", "x")]] : List Row).length ∧
      (∀ j, j < ([[("a", "x")]] : List Row).length →
        (startImportResults
          ⟨fun _ => none, fun _ => none, fun _ _ => none, fun _ => false⟩
          false (fun v _ => .vstr v)
          [{ csvColumn := "title", contentstackField := "title",
             fieldType := "text", isRequired := true }]
          [[("a", "x")]])[j]? =
          some (handleCreateOrUpdateEntry
            ⟨fun _ => none, fun _ => none, fun _ _ => none, fun _ => false⟩
            false (fun v _ => .vstr v)
            [{ csvColumn := "title", contentstackField := "title",
               fieldType := "text", isRequired := true }]
            (([[("a", "x")]] : List Row).getD j []) j).1)) :=
  ⟨by decide, by decide, by decide,
    required_missing_aborts_row_without_transport
      ⟨fun _ => none, fun _ => none, fun _ _ => none, fun _ => false⟩
      false (fun v _ => .vstr v)
      [{ csvColumn := "title", contentstackField := "title",
         fieldType := "text", isRequired := true }]
      [[("a", "x")]] 0
      { csvColumn := "title", contentstackField := "title",
        fieldType := "text", isRequired := true }
      (by decide) (by decide) (by decide) rfl (by decide)⟩

theorem dot_mem_data_append (a b : String) : '.' ∈ (a ++ "." ++ b).data := by
  show '.' ∈ (a.data ++ ['.'] ++ b.data)
  simp

theorem append_dot_ne_empty (a b : String) : (a ++ "." ++ b) ≠ "" := by
  intro h
  have h2 : (a ++ "." ++ b).data = "".data := congrArg String.data h
  have h3 := dot_mem_data_append a b
  rw [h2] at h3
  simp at h3

theorem joinPath_ne (pp uid : String) (hpp : pp ≠ "") :
    joinPath pp uid = pp ++ "." ++ uid := by
  simp [joinPath, hpp]

theorem flattenSync_append (l1 l2 : List ContentstackField)
    (pp pf : String) :
    flattenContentstackFieldsSync (l1 ++ l2) pp pf =
      flattenContentstackFieldsSync l1 pp pf ++
        flattenContentstackFieldsSync l2 pp pf := by
  induction l1 with
  | nil => simp [flattenContentstackFieldsSync]
  | cons f rest ih =>
    simp only [List.cons_append, flattenContentstackFieldsSync, ih,
      List.append_assoc]

theorem mem_flattenSync_of_mem_field (fields : List ContentstackField)
    (f : ContentstackField) (pp pf : String) (ff : FlattenedField)
    (hf : f ∈ fields) (hff : ff ∈ flattenFieldSync f pp pf) :
    ff ∈ flattenContentstackFieldsSync fields pp pf := by
  induction fields with
  | nil => exact absurd hf (List.not_mem_nil f)
  | cons g rest ih =>
    rw [flattenContentstackFieldsSync]
    rcases List.mem_cons.mp hf with h | h
    · subst h
      exact List.mem_append_left _ hff
    · exact List.mem_append_right _ (ih h)

theorem mem_blockEntries (f : ContentstackField) (p : String)
    (ff : FlattenedField) (hff : ff ∈ blockEntries f p) :
    ∃ bs, f.blocks = some bs ∧ ∃ b ∈ bs, ∃ bf ∈ b.schema,
      ff = blockEntry f b bf p := by
  unfold blockEntries at hff
  rcases hbs : f.blocks with _ | bs
  · rw [hbs] at hff
    simp at hff
  · rw [hbs] at hff
    rcases List.mem_flatMap.mp hff with ⟨b, hb, hmem⟩
    rcases List.mem_map.mp hmem with ⟨bf, hbf, hEq⟩
    exact ⟨bs, rfl, b, hb, bf, hbf, hEq.symm⟩

mutual

theorem flattenSync_nested_dot :
    ∀ (fields : List ContentstackField) (pp pf : String), pp ≠ "" →
      ∀ ff ∈ flattenContentstackFieldsSync fields pp pf,
        '.' ∈ ff.fieldPath.data
  | [], _, _, _, ff, hmem => by
    simp [flattenContentstackFieldsSync] at hmem
  | f :: rest, pp, pf, hpp, ff, hmem => by
    rw [flattenContentstackFieldsSync] at hmem
    rcases List.mem_append.mp hmem with h | h
    · exact flattenFieldSync_nested_dot f pp pf hpp ff h
    · exact flattenSync_nested_dot rest pp pf hpp ff h
termination_by fields _ _ _ _ _ => sizeOf fields

theorem flattenFieldSync_nested_dot :
    ∀ (f : ContentstackField) (pp pf : String), pp ≠ "" →
      ∀ ff ∈ flattenFieldSync f pp pf, '.' ∈ ff.fieldPath.data
  | .mk uid dn dt mnd rt blocks schema, pp, pf, hpp, ff, hmem => by
    simp only [flattenFieldSync.eq_def] at hmem
    rw [joinPath_ne pp uid hpp] at hmem
    rcases List.mem_append.mp hmem with h | h
    · rcases List.mem_append.mp h with h1 | h1
      · rcases hdt : decide (dt ≠ "blocks") with _ | _
        · rw [if_neg (by simpa using hdt)] at h1
          simp at h1
        · rw [if_pos (by simpa using hdt)] at h1
          rcases List.mem_singleton.mp h1 with rfl
          exact dot_mem_data_append pp uid
      · by_cases hdt : dt = "blocks"
        · rw [if_pos hdt] at h1
          obtain ⟨bs, _, b, _, bf, _, rfl⟩ :=
            mem_blockEntries _ _ _ h1
          exact dot_mem_data_append ((pp ++ "." ++ uid) ++ "." ++ b.uid)
            bf.uid
        · rw [if_neg hdt] at h1
          simp at h1
    · by_cases hdt : dt = "global_field"
      · rw [if_pos hdt] at h
        rcases hs : schema with _ | s
        · rw [hs] at h
          simp at h
        · rw [hs] at h
          exact flattenSync_nested_dot s (pp ++ "." ++ uid) uid
            (append_dot_ne_empty pp uid) ff h
      · rw [if_neg hdt] at h
        simp at h
termination_by f _ _ _ _ _ => sizeOf f

end

theorem flattenSync_top_no_dot (fields : List ContentstackField)
    (ff : FlattenedField)
    (hne : ∀ g ∈ fields, g.uid ≠ "")
    (hmem : ff ∈ flattenContentstackFieldsSync fields "" "")
    (hnd : '.' ∉ ff.fieldPath.data) :
    ∃ g ∈ fields, g.data_type ≠ "blocks" ∧ ff.fieldPath = g.uid := by
  induction fields with
  | nil => simp [flattenContentstackFieldsSync] at hmem
  | cons f rest ih =>
    rw [flattenContentstackFieldsSync] at hmem
    rcases List.mem_append.mp hmem with h | h
    · rcases f with ⟨uid, dn, dt, mnd, rt, blocks, schema⟩
      simp only [flattenFieldSync.eq_def] at h
      have hjoin : joinPath "" uid = uid := by simp [joinPath]
      rw [hjoin] at h
      rcases List.mem_append.mp h with h1 | h1
      · rcases List.mem_append.mp h1 with h2 | h2
        · by_cases hdt : dt = "blocks"
          · rw [if_neg (by simp [hdt])] at h2
            simp at h2
          · rw [if_pos (by simpa using hdt)] at h2
            rcases List.mem_singleton.mp h2 with rfl
            exact ⟨.mk uid dn dt mnd rt blocks schema,
              List.mem_cons_self _ _, by simpa [ContentstackField.data_type],
              rfl⟩
        · by_cases hdt : dt = "blocks"
          · rw [if_pos hdt] at h2
            obtain ⟨bs, _, b, _, bf, _, rfl⟩ := mem_blockEntries _ _ _ h2
            exact absurd (dot_mem_data_append (uid ++ "." ++ b.uid) bf.uid)
              (by simp [blockEntry, String.append_assoc] at hnd)
          · rw [if_neg hdt] at h2
            simp at h2
      · by_cases hdt : dt = "global_field"
        · rw [if_pos hdt] at h1
          rcases hs : schema with _ | s
          · rw [hs] at h1
            simp at h1
          · rw [hs] at h1
            have huid : uid ≠ "" := by
              have := hne (.mk uid dn dt mnd rt blocks schema)
                (List.mem_cons_self _ _)
              simpa [ContentstackField.uid] using this
            exact absurd (flattenSync_nested_dot s uid uid huid ff h1) hnd
        · rw [if_neg hdt] at h1
          simp at h1
    · obtain ⟨g, hg, h1, h2⟩ := ih (fun g hg => hne g
        (List.mem_cons_of_mem f hg)) h
      exact ⟨g, List.mem_cons_of_mem f hg, h1, h2⟩

/-- C2: for a top-level modular-block container `f` declaring block `b`
with schema member `x`, the synchronous flattener emits a FlattenedField
for `x` whose fieldPath is exactly `f.b.x` with `blockType` (the
`blockUid`) recorded as `b.uid`, and — given sibling-uid uniqueness,
non-empty uids, and a dot-free container uid — emits no FlattenedField
whose fieldPath is the container's own path. -/
theorem flattenSync_modular_block_paths
    (fields : List ContentstackField) (f : ContentstackField)
    (bs : List BlockSchema) (b : BlockSchema) (x : ContentstackField)
    (hf : f ∈ fields) (hdt : f.data_type = "blocks")
    (hbs : f.blocks = some bs) (hb : b ∈ bs) (hx : x ∈ b.schema)
    (huniq : ∀ g ∈ fields, g.uid = f.uid → g = f)
    (hne : ∀ g ∈ fields, g.uid ≠ "")
    (hdot : '.' ∉ f.uid.data) :
    (∃ ff ∈ flattenContentstackFieldsSync fields "" "",
      ff.uid = x.uid ∧
      ff.fieldPath = f.uid ++ "." ++ b.uid ++ "." ++ x.uid ∧
      ff.blockType = some b.uid) ∧
    (∀ ff ∈ flattenContentstackFieldsSync fields "" "",
      ff.fieldPath ≠ f.uid) := by
  constructor
  · refine ⟨blockEntry f b x f.uid, ?_, rfl, ?_, rfl⟩
    · apply mem_flattenSync_of_mem_field fields f "" "" _ hf
      rcases f with ⟨uid, dn, dt, mnd, rt, blocks, schema⟩
      simp only [flattenFieldSync.eq_def]
      have hjoin : joinPath "" uid = uid := by simp [joinPath]
      rw [hjoin]
      have hdt' : dt = "blocks" := by simpa [ContentstackField.data_type]
        using hdt
      apply List.mem_append_left
      apply List.mem_append_right
      rw [if_pos hdt']
      unfold blockEntries
      have hbs' : (ContentstackField.mk uid dn dt mnd rt blocks
          schema).blocks = some bs := hbs
      rw [show blocks = some bs from by
        simpa [ContentstackField.blocks] using hbs']
      exact List.mem_flatMap.mpr ⟨b, hb, List.mem_map.mpr ⟨x, hx, rfl⟩⟩
    · simp [blockEntry, String.append_assoc]
  · intro ff hmem hpath
    have hnd : '.' ∉ ff.fieldPath.data := by
      rw [hpath]
      exact hdot
    obtain ⟨g, hg, hgdt, hgp⟩ := flattenSync_top_no_dot fields ff hne hmem hnd
    have hgu : g.uid = f.uid := by rw [← hgp, ← hpath]
    have : g = f := huniq g hg hgu
    rw [this] at hgdt
    exact hgdt hdt

/-- C2 witness: the schema with one `content` container holding block
`hero` with field `headline`. -/
theorem flattenSync_modular_block_paths_witness :
    (ContentstackField.mk "content" "Content" "blocks" false none
      (some [.mk "Hero" "hero"
        [.mk "headline" "Headline" "text" false none none none]]) none) ∈
      [ContentstackField.mk "content" "Content" "blocks" false none
        (some [.mk "Hero" "hero"
          [.mk "headline" "Headline" "text" false none none none]]) none] ∧
    (ContentstackField.mk "content" "Content" "blocks" false none
      (some [.mk "Hero" "hero"
        [.mk "headline" "Headline" "text" false none none none]])
      none).data_type = "blocks" ∧
    ((∃ ff ∈ flattenContentstackFieldsSync
        [ContentstackField.mk "content" "Content" "blocks" false none
          (some [.mk "Hero" "hero"
            [.mk "headline" "Headline" "text" false none none none]]) none]
        "" "",
      ff.uid = (ContentstackField.mk "headline" "Headline" "text" false
        none none none).uid ∧
      ff.fieldPath = (ContentstackField.mk "content" "Content" "blocks"
          false none
          (some [.mk "Hero" "hero"
            [.mk "headline" "Headline" "text" false none none none]])
          none).uid ++ "." ++
        (BlockSchema.mk "Hero" "hero"
          [.mk "headline" "Headline" "text" false none none none]).uid ++
        "." ++ (ContentstackField.mk "headline" "Headline" "text" false
          none none none).uid ∧
      ff.blockType = some (BlockSchema.mk "Hero" "hero"
        [.mk "headline" "Headline" "text" false none none none]).uid) ∧
    (∀ ff ∈ flattenContentstackFieldsSync
        [ContentstackField.mk "content" "Content" "blocks" false none
          (some [.mk "Hero" "hero"
            [.mk "headline" "Headline" "text" false none none none]]) none]
        "" "",
      ff.fieldPath ≠ (ContentstackField.mk "content" "Content" "blocks"
        false none
        (some [.mk "Hero" "hero"
          [.mk "headline" "Headline" "text" false none none none]])
        none).uid)) :=
  ⟨List.mem_singleton.mpr rfl, rfl,
    flattenSync_modular_block_paths
      [ContentstackField.mk "content" "Content" "blocks" false none
        (some [.mk "Hero" "hero"
          [.mk "headline" "Headline" "text" false none none none]]) none]
      (ContentstackField.mk "content" "Content" "blocks" false none
        (some [.mk "Hero" "hero"
          [.mk "headline" "Headline" "text" false none none none]]) none)
      [BlockSchema.mk "Hero" "hero"
        [.mk "headline" "Headline" "text" false none none none]]
      (BlockSchema.mk "Hero" "hero"
        [.mk "headline" "Headline" "text" false none none none])
      (ContentstackField.mk "headline" "Headline" "text" false none none
        none)
      (List.mem_singleton.mpr rfl) rfl rfl
      (List.mem_singleton.mpr rfl) (List.mem_singleton.mpr rfl)
      (fun g hg hu => by simpa using List.mem_singleton.mp hg)
      (fun g hg => by
        have := List.mem_singleton.mp hg
        subst this
        simp [ContentstackField.uid])
      (by decide)⟩

theorem flattenAsync_append
    (resolve : Option (List String → ResolveOutcome)) (fuel : Nat)
    (l1 l2 : List ContentstackField) (pp pf : String) :
    flattenContentstackFields resolve fuel (l1 ++ l2) pp pf =
      flattenContentstackFields resolve fuel l1 pp pf ++
        flattenContentstackFields resolve fuel l2 pp pf := by
  cases fuel with
  | zero => rfl
  | succ fuel =>
    simp [flattenContentstackFields_succ, List.flatMap_append]

/-- The failure mode of the global-field schema fetch in the
asynchronous flattener, with the annotation it produces: `none` when
resolution succeeds (inline schema handled separately). -/
def globalResolutionFailureDesc
    (resolve : Option (List String → ResolveOutcome))
    (f : ContentstackField) : Option String :=
  match f.reference_to, resolve with
  | some r, some res =>
    match res r with
    | .ok _ => none
    | .httpError st => some (errorDescription st)
    | .networkError => some "network error"
  | _, _ => some "no config"

/-- C7 counterexample: a global field whose schema fetch fails with HTTP
404 contributes TWO records for its own fieldPath — the plain basic
record pushed for every non-blocks field, plus a second record with the
annotated display name — not the single annotated record the claim
describes. -/
theorem flattenAsync_failed_global_duplicate_counterexample :
    flattenContentstackFields (some fun _ => .httpError 404) 1
      [.mk "gf" "My Global" "global_field" false (some ["ref1"]) none none]
      "" "" =
      [selfEntry (.mk "gf" "My Global" "global_field" false (some ["ref1"])
          none none) "gf" "",
        annotatedGlobalEntry (.mk "gf" "My Global" "global_field" false
          (some ["ref1"]) none none) "global field not found" "gf" ""] ∧
    (([selfEntry (.mk "gf" "My Global" "global_field" false (some ["ref1"])
          none none) "gf" "",
        annotatedGlobalEntry (.mk "gf" "My Global" "global_field" false
          (some ["ref1"]) none none) "global field not found" "gf"
          ""].filter (fun ff => ff.fieldPath == "gf")).length = 2 ∧
      2 ≠ 1) := by
  refine ⟨rfl, by decide, by omega⟩

/-- C7 amended: whenever a global field's nested schema cannot be
resolved (HTTP error, network error, or no config/`reference_to`), the
asynchronous flattener still completes and that field contributes exactly
two records — the basic FlattenedField pushed for every non-blocks field
plus a second record whose display name is annotated with the short
failure reason — with zero nested fields, and every other field of the
schema is flattened exactly as it would be on its own. -/
theorem flattenAsync_failed_global_degradation
    (resolve : Option (List String → ResolveOutcome)) (fuel : Nat)
    (pre post : List ContentstackField) (f : ContentstackField)
    (desc : String) (hdt : f.data_type = "global_field")
    (hsch : f.schema = none)
    (hfail : globalResolutionFailureDesc resolve f = some desc) :
    flattenContentstackFields resolve (fuel + 1) (pre ++ f :: post) "" "" =
      flattenContentstackFields resolve (fuel + 1) pre "" "" ++
      ([selfEntry f f.uid "", annotatedGlobalEntry f desc f.uid ""] ++
        flattenContentstackFields resolve (fuel + 1) post "" "") := by
  rw [flattenAsync_append]
  congr 1
  rw [flattenContentstackFields_succ, List.flatMap_cons,
    ← flattenContentstackFields_succ]
  congr 1
  rcases f with ⟨uid, dn, dt, mnd, rt, blocks, schema⟩
  have hdt' : dt = "global_field" := by
    simpa [ContentstackField.data_type] using hdt
  have hsch' : schema = none := by
    simpa [ContentstackField.schema] using hsch
  subst hdt'
  subst hsch'
  unfold globalResolutionFailureDesc at hfail
  simp only [ContentstackField.reference_to] at hfail
  unfold flattenFieldAsync
  simp only [joinPath, ContentstackField.uid, ContentstackField.data_type,
    ContentstackField.schema, ContentstackField.reference_to]
  rcases rt with _ | r
  · simp at hfail
    simp [hfail]
  · rcases resolve with _ | res
    · simp at hfail
      simp [hfail]
    · rcases hout : res r with sch | st | _
      · simp [hout] at hfail
      · simp [hout] at hfail
        simp [hout, hfail]
      · simp [hout] at hfail
        simp [hout, hfail]

/-- C7 amended witness: a three-field schema whose middle global field
fails with HTTP 401 still flattens the surrounding `title` and `age`
fields, and the failed field contributes its basic record plus the
`unauthorized access` annotation. -/
theorem flattenAsync_failed_global_degradation_witness :
    (ContentstackField.mk "gf" "My Global" "global_field" false
      (some ["ref1"]) none none).data_type = "global_field" ∧
    globalResolutionFailureDesc (some fun _ => .httpError 401)
      (.mk "gf" "My Global" "global_field" false (some ["ref1"]) none none) =
      some "unauthorized access" ∧
    flattenContentstackFields (some fun _ => .httpError 401) 3
      ([.mk "title" "Title" "text" true none none none] ++
        (ContentstackField.mk "gf" "My Global" "global_field" false
          (some ["ref1"]) none none) ::
        [.mk "age" "Age" "number" false none none none]) "" "" =
      flattenContentstackFields (some fun _ => .httpError 401) 3
        [.mk "title" "Title" "text" true none none none] "" "" ++
      ([selfEntry (.mk "gf" "My Global" "global_field" false (some ["ref1"])
          none none) (ContentstackField.mk "gf" "My Global" "global_field"
          false (some ["ref1"]) none none).uid "",
        annotatedGlobalEntry (.mk "gf" "My Global" "global_field" false
          (some ["ref1"]) none none) "unauthorized access"
          (ContentstackField.mk "gf" "My Global" "global_field" false
            (some ["ref1"]) none none).uid ""] ++
        flattenContentstackFields (some fun _ => .httpError 401) 3
          [.mk "age" "Age" "number" false none none none] "" "") :=
  ⟨rfl, rfl,
    flattenAsync_failed_global_degradation (some fun _ => .httpError 401) 2
      [.mk "title" "Title" "text" true none none none]
      [.mk "age" "Age" "number" false none none none]
      (.mk "gf" "My Global" "global_field" false (some ["ref1"]) none none)
      "unauthorized access" rfl rfl rfl⟩

end CsvImporter
